import Mathlib

/-!
Verification development for the spreadsheet-normalization pipeline of the
Automation-swiss dashboard (TypeScript/React).  The TypeScript sources are
shallowly embedded: JavaScript numbers are modelled as either an exact
rational or NaN (`JNum`), spreadsheet cells as `Cell`, grids as
`List (List Cell)`, and each parser/allocator as a total Lean function that
mirrors the source line by line.  Thrown exceptions are modelled with
`Except String`.

Modelling conventions:
* JS `number` is IEEE double in the source; here arithmetic is exact rational
  arithmetic, plus an explicit `nan` constructor for NaN.  (`Infinity` does
  not arise on any path modelled here except division by zero, which is
  mapped to `nan`; no embedded call site divides by zero under the theorems'
  hypotheses.)
* Rational operations are implemented through `Rat.divInt` so that concrete
  evaluation reduces in the kernel; bridge lemmas identify them with the
  standard field operations on `ℚ`.
* `parseFloat`/`parseInt`/`Number` are modelled for decimal literals with
  optional sign, fraction and exponent; hexadecimal literals and the
  `Infinity` token are not modelled (they do not occur in the spreadsheets
  this pipeline ingests).
* String operations work on `String.data` (lists of characters); `trim` and
  `toLowerCase`/`toUpperCase` are modelled for the ASCII range, which covers
  every token the parsers compare against.
-/

set_option maxRecDepth 8000
set_option linter.unusedVariables false

namespace Swiss

/-! ### Kernel-reducible rational arithmetic -/

/-- Addition on `ℚ` via `Rat.divInt`, so that it reduces in the kernel
(`Rat.add` is irreducible in Batteries). -/
def ratAdd (a b : ℚ) : ℚ := Rat.divInt (a.num * b.den + b.num * a.den) (a.den * b.den)

/-- Subtraction on `ℚ` via `Rat.divInt`. -/
def ratSub (a b : ℚ) : ℚ := Rat.divInt (a.num * b.den - b.num * a.den) (a.den * b.den)

/-- Multiplication on `ℚ` via `Rat.divInt`. -/
def ratMul (a b : ℚ) : ℚ := Rat.divInt (a.num * b.num) (a.den * b.den)

/-- Division on `ℚ` via `Rat.divInt` (0 when the divisor is 0, like `ℚ`). -/
def ratDiv (a b : ℚ) : ℚ := Rat.divInt (a.num * b.den) (a.den * b.num)

/-- Negation on `ℚ` via `Rat.divInt`. -/
def ratNeg (a : ℚ) : ℚ := Rat.divInt (-a.num) a.den

theorem den_int_ne_zero (a : ℚ) : ((a.den : ℤ)) ≠ 0 := by
  exact_mod_cast a.den_ne_zero

@[simp] theorem ratAdd_eq (a b : ℚ) : ratAdd a b = a + b := by
  unfold ratAdd
  rw [← Rat.divInt_add_divInt a.num b.num (den_int_ne_zero a) (den_int_ne_zero b),
    Rat.num_divInt_den, Rat.num_divInt_den]

@[simp] theorem ratSub_eq (a b : ℚ) : ratSub a b = a - b := by
  unfold ratSub
  rw [← Rat.divInt_sub_divInt a.num b.num (den_int_ne_zero a) (den_int_ne_zero b),
    Rat.num_divInt_den, Rat.num_divInt_den]

@[simp] theorem ratMul_eq (a b : ℚ) : ratMul a b = a * b := by
  unfold ratMul
  rw [← Rat.divInt_mul_divInt a.num b.num (den_int_ne_zero a) (den_int_ne_zero b),
    Rat.num_divInt_den, Rat.num_divInt_den]

@[simp] theorem ratNeg_eq (a : ℚ) : ratNeg a = -a := by
  unfold ratNeg
  rw [← Rat.neg_divInt, Rat.num_divInt_den]

@[simp] theorem ratDiv_eq (a b : ℚ) : ratDiv a b = a / b := by
  unfold ratDiv
  rw [Rat.div_def']

/-- Floor of a rational, via integer euclidean division (kernel-reducible). -/
def ratFloor (q : ℚ) : ℤ := q.num / (q.den : ℤ)

theorem ratFloor_eq (q : ℚ) : ratFloor q = ⌊q⌋ := by
  rw [Rat.floor_def]; rfl

/-- Model of JavaScript `Math.round`: round half-up (toward `+∞`). -/
def jsRound (q : ℚ) : ℤ := ratFloor (ratAdd q (mkRat 1 2))

theorem jsRound_eq (q : ℚ) : jsRound q = ⌊q + 1 / 2⌋ := by
  unfold jsRound
  rw [ratFloor_eq, ratAdd_eq, Rat.mkRat_eq_div]
  norm_num

/-! ### JavaScript numbers: exact rational or NaN -/

/-- A JavaScript `number`, modelled as an exact rational or NaN. -/
inductive JNum where
  | nan : JNum
  | val (q : ℚ) : JNum
deriving DecidableEq

namespace JNum

/-- JS `+` (NaN-propagating). -/
def add : JNum → JNum → JNum
  | val a, val b => val (ratAdd a b)
  | _, _ => nan

/-- JS binary `-` (NaN-propagating). -/
def sub : JNum → JNum → JNum
  | val a, val b => val (ratSub a b)
  | _, _ => nan

/-- JS `*` (NaN-propagating). -/
def mul : JNum → JNum → JNum
  | val a, val b => val (ratMul a b)
  | _, _ => nan

/-- JS `/`; division by zero (which yields `±Infinity`/NaN in JS) is mapped
to `nan`.  No embedded call site divides by zero under the hypotheses of the
theorems below. -/
def div : JNum → JNum → JNum
  | val a, val b => if b = 0 then nan else val (ratDiv a b)
  | _, _ => nan

/-- JS unary `-` (NaN-propagating). -/
def neg : JNum → JNum
  | val a => val (ratNeg a)
  | nan => nan

/-- JS `>` comparison: false whenever an operand is NaN. -/
def gtb : JNum → JNum → Bool
  | val a, val b => decide (b < a)
  | _, _ => false

instance : Add JNum := ⟨add⟩
instance : Sub JNum := ⟨sub⟩
instance : Mul JNum := ⟨mul⟩
instance : Div JNum := ⟨div⟩
instance : Neg JNum := ⟨neg⟩
instance : Zero JNum := ⟨val 0⟩

@[simp] theorem val_add_val (a b : ℚ) : (val a + val b) = val (a + b) := by
  show add (val a) (val b) = _
  simp [add]

@[simp] theorem nan_add (x : JNum) : (nan + x) = nan := rfl

@[simp] theorem add_nan (x : JNum) : (x + nan) = nan := by cases x <;> rfl

@[simp] theorem val_sub_val (a b : ℚ) : (val a - val b) = val (a - b) := by
  show sub (val a) (val b) = _
  simp [sub]

@[simp] theorem nan_sub (x : JNum) : (nan - x) = nan := rfl

@[simp] theorem sub_nan (x : JNum) : (x - nan) = nan := by cases x <;> rfl

@[simp] theorem val_mul_val (a b : ℚ) : (val a * val b) = val (a * b) := by
  show mul (val a) (val b) = _
  simp [mul]

@[simp] theorem neg_val (a : ℚ) : (-(val a)) = val (-a) := by
  show neg (val a) = _
  simp [neg]

@[simp] theorem neg_nan : (-(nan : JNum)) = nan := rfl

@[simp] theorem zero_def : (0 : JNum) = val 0 := rfl

@[simp] theorem add_val_zero (x : JNum) : x + val 0 = x := by
  cases x
  · rfl
  · rw [val_add_val]; norm_num

@[simp] theorem val_zero_add (x : JNum) : val 0 + x = x := by
  cases x
  · rfl
  · rw [val_add_val]; norm_num

theorem addJ_assoc (a b c : JNum) : a + b + c = a + (b + c) := by
  cases a <;> cases b <;> cases c <;>
    simp [val_add_val, add_assoc]

theorem addJ_comm (a b : JNum) : a + b = b + a := by
  cases a <;> cases b <;> simp [val_add_val, add_comm]

instance : AddCommMonoid JNum where
  add_assoc := addJ_assoc
  zero_add := by intro a; rw [zero_def, val_zero_add]
  add_zero := by intro a; rw [zero_def, add_val_zero]
  add_comm := addJ_comm
  nsmul := nsmulRec

/-- JS `reduce((a, b) => a + b, 0)`. -/
def sumJ (l : List JNum) : JNum := l.foldl (· + ·) (val 0)

theorem foldl_add_eq (l : List JNum) (a : JNum) : l.foldl (· + ·) a = a + l.sum := by
  induction l generalizing a with
  | nil => simp [List.sum_nil]
  | cons x t ih => simp [List.foldl_cons, List.sum_cons, ih, addJ_assoc]

theorem sumJ_eq_sum (l : List JNum) : sumJ l = l.sum := by
  unfold sumJ
  rw [foldl_add_eq, ← zero_def, zero_add]

@[simp] theorem sumJ_nil : sumJ [] = val 0 := rfl

theorem sum_map_val {α : Type} (f : α → ℚ) (l : List α) :
    (l.map (fun x => val (f x))).sum = val ((l.map f).sum) := by
  induction l with
  | nil => rfl
  | cons x t ih => simp [List.sum_cons, ih]

end JNum

/-! ### JavaScript string primitives (on `String.data` character lists) -/

/-- Whitespace for JS `trim` (ASCII subset; sufficient for the tokens the
parsers compare against). -/
def isWsChar (c : Char) : Bool := c == ' ' || c == '\t' || c == '\n' || c == '\r'

def trimChars (l : List Char) : List Char :=
  ((l.dropWhile isWsChar).reverse.dropWhile isWsChar).reverse

/-- JS `String.prototype.trim`. -/
def jsTrim (s : String) : String := ⟨trimChars s.data⟩

/-- JS `toLowerCase` (ASCII). -/
def strLower (s : String) : String := ⟨s.data.map Char.toLower⟩

/-- JS `toUpperCase` (ASCII). -/
def strUpper (s : String) : String := ⟨s.data.map Char.toUpper⟩

/-- Does the second list start with the first? -/
def listLeads : List Char → List Char → Bool
  | [], _ => true
  | _ :: _, [] => false
  | a :: p, b :: l => a == b && listLeads p l

/-- Does the pattern occur as a contiguous sublist of the text? -/
def listHasSub (p : List Char) : List Char → Bool
  | [] => p.isEmpty
  | b :: t => listLeads p (b :: t) || listHasSub p t

/-- JS `s.includes(pat)`. -/
def strHas (s pat : String) : Bool := listHasSub pat.data s.data

/-- JS `s.startsWith(pat)`. -/
def strBegins (s pat : String) : Bool := listLeads pat.data s.data

/-- JS `s.endsWith(pat)`. -/
def strFinishes (s pat : String) : Bool := listLeads pat.data.reverse s.data.reverse

/-- JS `s.replace(/,/g, "")`. -/
def dropCommas (s : String) : String := ⟨s.data.filter (fun c => c != ',')⟩

/-- JS `s.replace(/[()]/g, "")`. -/
def dropParens (s : String) : String := ⟨s.data.filter (fun c => c != '(' && c != ')')⟩

def digitsToNat (l : List Char) : ℕ := l.foldl (fun n c => 10 * n + (c.toNat - '0'.toNat)) 0

/-- Ten to an integer power, as a kernel-reducible rational. -/
def pow10 (e : ℤ) : ℚ :=
  if 0 ≤ e then Rat.divInt ((10 : ℤ) ^ e.toNat) 1 else Rat.divInt 1 ((10 : ℤ) ^ (-e).toNat)

/-- JS `parseFloat`: skip leading whitespace, longest decimal-literal head
(optional sign, digits, optional fraction, optional exponent); NaN when no
digits are found.  Hexadecimal literals and the `Infinity` token are not
modelled (they do not occur in this pipeline's spreadsheets). -/
def jsParseFloat (s : String) : JNum :=
  let l0 := s.data.dropWhile isWsChar
  let sgn : ℤ × List Char :=
    match l0 with
    | '+' :: t => (1, t)
    | '-' :: t => (-1, t)
    | _ => (1, l0)
  let ip := sgn.2.takeWhile Char.isDigit
  let r1 := sgn.2.dropWhile Char.isDigit
  let fpPair : List Char × List Char :=
    match r1 with
    | '.' :: t => (t.takeWhile Char.isDigit, t.dropWhile Char.isDigit)
    | _ => ([], r1)
  let fp := fpPair.1
  if ip.isEmpty && fp.isEmpty then JNum.nan
  else
    let ex : ℤ :=
      match fpPair.2 with
      | c :: t =>
        if c == 'e' || c == 'E' then
          let st : ℤ × List Char :=
            match t with
            | '+' :: r => (1, r)
            | '-' :: r => (-1, r)
            | _ => (1, t)
          let ds := st.2.takeWhile Char.isDigit
          if ds.isEmpty then 0 else st.1 * (digitsToNat ds : ℤ)
        else 0
      | [] => 0
    let mantNum : ℤ := sgn.1 * ((digitsToNat ip : ℤ) * (10 : ℤ) ^ fp.length + (digitsToNat fp : ℤ))
    JNum.val (ratMul (Rat.divInt mantNum ((10 : ℤ) ^ fp.length)) (pow10 ex))

/-- JS `parseInt` with radix 10 auto-detection reduced to the decimal case
(no hexadecimal); `none` models NaN. -/
def jsParseInt (s : String) : Option ℤ :=
  let l0 := s.data.dropWhile isWsChar
  let sgn : ℤ × List Char :=
    match l0 with
    | '+' :: t => (1, t)
    | '-' :: t => (-1, t)
    | _ => (1, l0)
  let ds := sgn.2.takeWhile Char.isDigit
  if ds.isEmpty then none else some (sgn.1 * (digitsToNat ds : ℤ))

/-- JS `Number(string)`: the whole (trimmed) string must be a decimal
literal; the empty string is 0; `none` models NaN. -/
def jsNumber (s : String) : Option ℚ :=
  let l0 := trimChars s.data
  if l0.isEmpty then some 0
  else
    let sgn : ℤ × List Char :=
      match l0 with
      | '+' :: t => (1, t)
      | '-' :: t => (-1, t)
      | _ => (1, l0)
    let ip := sgn.2.takeWhile Char.isDigit
    let r1 := sgn.2.dropWhile Char.isDigit
    let fpPair : List Char × List Char :=
      match r1 with
      | '.' :: t => (t.takeWhile Char.isDigit, t.dropWhile Char.isDigit)
      | _ => ([], r1)
    let fp := fpPair.1
    if ip.isEmpty && fp.isEmpty then none
    else
      let mant : ℚ :=
        Rat.divInt (sgn.1 * ((digitsToNat ip : ℤ) * (10 : ℤ) ^ fp.length + (digitsToNat fp : ℤ)))
          ((10 : ℤ) ^ fp.length)
      match fpPair.2 with
      | [] => some mant
      | c :: t =>
        if c == 'e' || c == 'E' then
          let st : ℤ × List Char :=
            match t with
            | '+' :: r => (1, r)
            | '-' :: r => (-1, r)
            | _ => (1, t)
          let ds := st.2.takeWhile Char.isDigit
          let rest := st.2.dropWhile Char.isDigit
          if ds.isEmpty || !rest.isEmpty then none
          else some (ratMul mant (pow10 (st.1 * (digitsToNat ds : ℤ))))
        else none

/-! ### Spreadsheet cells -/

/-- A raw spreadsheet cell as delivered by `sheet_to_json` with
`defval: ""`: a number, a string, or `undefined` (out-of-range array
access). -/
inductive Cell where
  | num (q : ℚ) : Cell
  | str (s : String) : Cell
  | missing : Cell
deriving DecidableEq

/-- JS truthiness of a cell value (`0`, `""` and `undefined` are falsy). -/
def cellFalsy : Cell → Bool
  | .num q => q == 0
  | .str s => s == ""
  | .missing => true

/-- Decimal representation of an integer-valued rational; for non-integer
values JS prints a decimal expansion, which is approximated here by
"num/den" — no theorem below depends on the printed form of a non-integer
numeric cell. -/
def jsNumToString (q : ℚ) : String :=
  if q.den = 1 then toString q.num else toString q.num ++ "/" ++ toString q.den

/-- JS `String(cell)`. -/
def cellToString : Cell → String
  | .num q => jsNumToString q
  | .str s => s
  | .missing => "undefined"

/-- JS `String(cell || dflt)`. -/
def cellStrOr (c : Cell) (dflt : String) : String :=
  if cellFalsy c then dflt else cellToString c

/-- JS array read `row[i]` with a possibly negative index. -/
def cellAt (row : List Cell) (i : ℤ) : Cell :=
  if i < 0 then Cell.missing else row.getD i.toNat Cell.missing

/-- JS `Array.prototype.findIndex` (−1 when absent). -/
def jsFindIndex (p : α → Bool) (l : List α) : ℤ :=
  match l.findIdx? p with
  | some i => (i : ℤ)
  | none => -1

/-- JS `Array.prototype.indexOf` for strings (−1 when absent). -/
def jsIndexOf (l : List String) (x : String) : ℤ :=
  jsFindIndex (fun y => y == x) l

/-- Value Normalizer from `src/services/data-parsers.ts` (`cleanValue`): a
number passes through; falsy values, `"-"` and `""` become 0; an
accounting-parenthesized string is negated; otherwise `parseFloat(str) || 0`.
The same function is duplicated locally in
`src/Delivery Package/components/FinanceEntry.tsx`. -/
def cleanValue (v : Cell) : JNum :=
  match v with
  | .num q => .val q
  | _ =>
    if cellFalsy v then .val 0
    else
      let str := jsTrim (dropCommas (cellToString v))
      if str == "-" || str == "" then .val 0
      else if strBegins str "(" && strFinishes str ")" then
        JNum.val (-1) * jsParseFloat (dropParens str)
      else
        match jsParseFloat str with
        | .nan => .val 0
        | .val q => if q == 0 then .val 0 else .val q

/-! ### Configuration constants -/

/-- Modelled from the spec: the parsers import `MONTH_NAMES` from
`config.ts`, which is not among the given source files.  The spec fixes full
English month names through its report-date formats ("November 01, 2025",
"MASTER_November_2025", §3), and the MREP sync script in the source tree
declares the identical constant locally. -/
def MONTH_NAMES : List String :=
  ["January", "February", "March", "April", "May", "June",
   "July", "August", "September", "October", "November", "December"]

/-- Modelled from the spec: `SALES_TEAMS` from `config.ts` — the fixed set of
known team names carried as the row-scanning state (§4.4).  Upper-case
spellings are forced by the source comparison
`String(row[...]).toUpperCase() === t`, and the four names are listed in the
repository's diagnostic notes (ACHIEVERS, PASSIONATE, CONCORD, DYNAMIC). -/
def SALES_TEAMS : List String := ["ACHIEVERS", "PASSIONATE", "CONCORD", "DYNAMIC"]

/-- Three-letter month abbreviations to 0-based month, local to the upload
handler (`monthMap` in the Dashboard source file). -/
def monthMap : List (String × ℕ) :=
  [("Jan", 0), ("Feb", 1), ("Mar", 2), ("Apr", 3), ("May", 4), ("Jun", 5),
   ("Jul", 6), ("Aug", 7), ("Sep", 8), ("Oct", 9), ("Nov", 10), ("Dec", 11)]

/-! ### Regular-expression matchers used by the parsers -/

def isSepChar (c : Char) : Bool := c == '-' || c == '.' || c == '/'

def isAsciiAlpha (c : Char) : Bool :=
  ('A' ≤ c && c ≤ 'Z') || ('a' ≤ c && c ≤ 'z')

/-- Tail of the date-header regex after the day digits:
`[-./]([A-Za-z]\x7b3\x7d)[-./](\d\x7bminY,maxY\x7d)$`. -/
def dmyTail (minY maxY : ℕ) (l : List Char) : Option (List Char × List Char) :=
  match l with
  | s1 :: a1 :: a2 :: a3 :: s2 :: yr =>
    if isSepChar s1 && isAsciiAlpha a1 && isAsciiAlpha a2 && isAsciiAlpha a3 && isSepChar s2
        && yr.all Char.isDigit && decide (minY ≤ yr.length) && decide (yr.length ≤ maxY) then
      some ([a1, a2, a3], yr)
    else none
  | _ => none

/-- Anchored matcher for `^(\d\x7b1,2\x7d)[-./]([A-Za-z]\x7b3\x7d)[-./](\d\x7bminY,maxY\x7d)$`
(with the regex's greedy-then-backtrack day length).  Returns (day digits,
month letters, year digits). -/
def matchDMY (minY maxY : ℕ) (l : List Char) : Option (List Char × List Char × List Char) :=
  match l with
  | [] => none
  | d1 :: rest1 =>
    if !d1.isDigit then none
    else
      match rest1 with
      | [] => none
      | d2 :: rest2 =>
        if d2.isDigit then
          match dmyTail minY maxY rest2 with
          | some (m, y) => some ([d1, d2], m, y)
          | none =>
            match dmyTail minY maxY rest1 with
            | some (m, y) => some ([d1], m, y)
            | none => none
        else
          match dmyTail minY maxY rest1 with
          | some (m, y) => some ([d1], m, y)
          | none => none

/-- Matcher for `[-./](\d\x7b2,4\x7d)$`. -/
def sepYearTail (l : List Char) : Option (List Char) :=
  match l with
  | s :: yr =>
    if isSepChar s && yr.all Char.isDigit && decide (2 ≤ yr.length) && decide (yr.length ≤ 4) then
      some yr
    else none
  | [] => none

/-- Matcher for `(\d\x7b1,2\x7d)[-./](\d\x7b2,4\x7d)$` with backtracking. -/
def numMonthYearTail (l : List Char) : Option (List Char × List Char) :=
  match l with
  | [] => none
  | m1 :: rest1 =>
    if !m1.isDigit then none
    else
      (match rest1 with
        | m2 :: r2 =>
          if m2.isDigit then (sepYearTail r2).map (fun y => ([m1, m2], y)) else none
        | [] => none)
      <|> (sepYearTail rest1).map (fun y => ([m1], y))

/-- Anchored matcher for `^(\d\x7b1,2\x7d)[-./](\d\x7b1,2\x7d)[-./](\d\x7b2,4\x7d)$`. -/
def matchNumDate (l : List Char) : Option (List Char × List Char × List Char) :=
  match l with
  | [] => none
  | d1 :: rest1 =>
    if !d1.isDigit then none
    else
      (match rest1 with
        | d2 :: s :: r3 =>
          if d2.isDigit && isSepChar s then
            (numMonthYearTail r3).map (fun p => ([d1, d2], p.1, p.2))
          else none
        | _ => none)
      <|> (match rest1 with
        | s :: r2 =>
          if isSepChar s then (numMonthYearTail r2).map (fun p => ([d1], p.1, p.2)) else none
        | [] => none)

/-- Four decimal digits at the head. -/
def fourDigits (l : List Char) : Bool :=
  match l with
  | a :: b :: c :: d :: _ => a.isDigit && b.isDigit && c.isDigit && d.isDigit
  | _ => false

/-- Matcher for `\d\x7b1,2\x7d/\d\x7b4\x7d...` at the head. -/
def slashMonthYear (l : List Char) : Bool :=
  match l with
  | [] => false
  | c1 :: rest1 =>
    if !c1.isDigit then false
    else
      (match rest1 with
        | c2 :: '/' :: r => c2.isDigit && fourDigits r
        | _ => false)
      ||
      (match rest1 with
        | '/' :: r => fourDigits r
        | _ => false)

/-- Matcher for `\d\x7b1,2\x7d/\d\x7b1,2\x7d/\d\x7b4\x7d` at the head
(unanchored end). -/
def slashAtStart (l : List Char) : Bool :=
  match l with
  | [] => false
  | c1 :: rest1 =>
    if !c1.isDigit then false
    else
      (match rest1 with
        | c2 :: '/' :: r => c2.isDigit && slashMonthYear r
        | _ => false)
      ||
      (match rest1 with
        | '/' :: r => slashMonthYear r
        | _ => false)

/-- JS `/\d\x7b1,2\x7d\/\d\x7b1,2\x7d\/\d\x7b4\x7d/.test(s)`: search anywhere. -/
def slashDateSearch : List Char → Bool
  | [] => false
  | c :: t => slashAtStart (c :: t) || slashDateSearch t

def hasDigit (l : List Char) : Bool := l.any Char.isDigit

def afterFirstDigit : List Char → Option (List Char)
  | [] => none
  | c :: t => if c.isDigit then some t else afterFirstDigit t

/-- Scan for `TO` (case-insensitive) or `-` followed somewhere by a digit. -/
def toDashScan : List Char → Bool
  | [] => false
  | c :: t =>
    (if c == '-' then hasDigit t
     else if c == 'T' || c == 't' then
       match t with
       | o :: r => (o == 'O' || o == 'o') && hasDigit r
       | [] => false
     else false)
    || toDashScan t

/-- JS `/\d+.*(?:TO|-).*\d+/i.test(s)` (header cells contain no newline, so
`.` is any character here). -/
def weekHeaderTest (s : String) : Bool :=
  match afterFirstDigit s.data with
  | some rest => toDashScan rest
  | none => false

/-- JS `str.charAt(0).toUpperCase() + str.slice(1).toLowerCase()`. -/
def titleCase (s : String) : String :=
  match s.data with
  | [] => ""
  | c :: t => ⟨Char.toUpper c :: t.map Char.toLower⟩

/-! ### Fact records and the sales parser (`src/services/data-parsers.ts`) -/

/-- A canonical fact record (`DepartmentMismatch` in `types.ts`). -/
structure DepartmentMismatch where
  department : String
  team : String
  metric : String
  plan : JNum
  actual : JNum
  variance : JNum
  unit : String
  status : String
  reportDate : String
  fy : Option String := none
deriving DecidableEq

def padTwo (n : ℕ) : String := if n < 10 then "0" ++ toString n else toString n

/-- Financial-year label (`getFYLabel` in data-parsers.ts); July–June cycle.
All call sites use a positive 4-digit year, so natural subtraction is
faithful. -/
def getFYLabel (month year : ℕ) : String :=
  if 6 ≤ month then "FY " ++ padTwo (year % 100) ++ "-" ++ padTwo ((year + 1) % 100)
  else "FY " ++ padTwo ((year - 1) % 100) ++ "-" ++ padTwo (year % 100)

/-- JS object assignment `map[k] = v` on an integer-keyed record. -/
def recordSet (m : List (ℕ × ℕ)) (k v : ℕ) : List (ℕ × ℕ) :=
  if m.any (fun p => p.1 == k) then m.map (fun p => if p.1 == k then (k, v) else p)
  else m ++ [(k, v)]

/-- JS `Object.keys` of an integer-keyed record: ascending numeric order. -/
def recordKeys (m : List (ℕ × ℕ)) : List ℕ :=
  List.insertionSort (· ≤ ·) (m.map Prod.fst)

/-- Lookup in an integer-keyed record. -/
def recordGet (m : List (ℕ × ℕ)) (k : ℕ) : Option ℕ :=
  (m.find? (fun p => p.1 == k)).map Prod.snd

/-- The date-column map built by `parseSalesExcel` for daily files: header
cells matching `^(\d\x7b1,2\x7d)[-./]([A-Za-z]\x7b3\x7d)[-./](\d\x7b2\x7d)$` whose
title-cased three-letter month is found in `MONTH_NAMES` at index
`selectedMonth`. -/
def salesDateColumnMap (headerRow : List Cell) (selectedMonth : ℕ) : List (ℕ × ℕ) :=
  headerRow.enum.foldl (fun acc p =>
    match matchDMY 2 2 (cellToString p.2).data with
    | some (ds, ms, _) =>
      let mStr := titleCase ⟨ms⟩
      if jsIndexOf MONTH_NAMES mStr == (selectedMonth : ℤ) then recordSet acc (digitsToNat ds) p.1
      else acc
    | none => acc) []

/-- One pushed sales fact record of `parseSalesExcel` (the object literal of
the `allNewEntries.push` call, with the master/daily conditionals). -/
def salesEntry (isMaster : Bool) (selectedMonth selectedYear day : ℕ) (fy : String)
    (team metric : String) (v : JNum) : DepartmentMismatch :=
  { department := "Sales", team := team, metric := metric,
    plan := if isMaster then v else JNum.val 0,
    actual := if isMaster then JNum.val 0 else v,
    variance := if isMaster then -v else v,
    unit := "Units", status := "on-track",
    reportDate :=
      if isMaster then "MASTER_" ++ MONTH_NAMES.getD selectedMonth "undefined" ++ "_" ++ toString selectedYear
      else MONTH_NAMES.getD selectedMonth "undefined" ++ " " ++ toString day ++ ", " ++ toString selectedYear,
    fy := some fy }

/-- The fact records one data row contributes under a given current team
(empty when the row is skipped or its value is zero in daily mode). -/
def salesRowEmit (regionIdx productIdx : ℤ) (dataIdx : ℤ) (isMaster : Bool)
    (selectedMonth selectedYear day : ℕ) (fy : String) (currentTeam : String)
    (row : List Cell) : List DepartmentMismatch :=
  let metric := jsTrim (cellToString (cellAt row (if productIdx == -1 then 0 else productIdx)))
  let region := if regionIdx == -1 then currentTeam else jsTrim (cellToString (cellAt row regionIdx))
  if metric == "" || strHas (strLower metric) "total" || strHas (strLower region) "total" then
    []
  else
    let v := cleanValue (cellAt row dataIdx)
    if v != JNum.val 0 || isMaster then
      if region != "" && region != currentTeam then
        [salesEntry isMaster selectedMonth selectedYear day fy currentTeam metric v,
         { salesEntry isMaster selectedMonth selectedYear day fy currentTeam metric v with
            department := "Territory Sales", team := region }]
      else [salesEntry isMaster selectedMonth selectedYear day fy currentTeam metric v]
    else []

/-- One row step of the sales fact extractor: carries `currentTeam` and the
accumulated entries. -/
def salesRowStep (headerIdx : ℕ) (teamIdx regionIdx productIdx : ℤ) (dataIdx : ℤ)
    (isMaster : Bool) (selectedMonth selectedYear day : ℕ) (fy : String)
    (st : String × List DepartmentMismatch) (rp : ℕ × List Cell) :
    String × List DepartmentMismatch :=
  if rp.1 == headerIdx then st
  else
    let row := rp.2
    let teamCell := cellToString (cellAt row (if teamIdx == -1 then 0 else teamIdx))
    let currentTeam :=
      match SALES_TEAMS.find? (fun t => strUpper teamCell == t) with
      | some t => t
      | none => st.1
    if currentTeam == "" then (currentTeam, st.2)
    else
      (currentTeam, st.2 ++ salesRowEmit regionIdx productIdx dataIdx isMaster
        selectedMonth selectedYear day fy currentTeam row)

/-- One target-day iteration of `parseSalesExcel`: resolve the data column
for the day (the target column for master files) and walk all rows. -/
def salesDayStep (rows : List (List Cell)) (headerIdx : ℕ)
    (teamIdx regionIdx productIdx targetIdx : ℤ) (dateColumnMap : List (ℕ × ℕ))
    (isMaster : Bool) (selectedMonth selectedYear : ℕ) (fy : String)
    (acc : List DepartmentMismatch) (day : ℕ) : List DepartmentMismatch :=
  let dataIdx : ℤ :=
    if isMaster then targetIdx
    else match recordGet dateColumnMap day with
      | some c => (c : ℤ)
      | none => -1
  if dataIdx == -1 then acc
  else (rows.enum.foldl
    (salesRowStep headerIdx teamIdx regionIdx productIdx dataIdx isMaster
      selectedMonth selectedYear day fy) ("", acc)).2

/-- Header-trigger predicate of `parseSalesExcel` (named for the C5
statements). -/
def salesHeaderTrigger (c : Cell) : Bool :=
  let low := strLower (cellToString c)
  low == "teams" || low == "brands" || low == "all regions" || low == "products"
    || low == "target units"

/-- Header-row index selected by `parseSalesExcel`: the first row containing
a trigger token, with fallback to row 0 (`rows.find(...) || rows[0]`). -/
def salesHeaderIdx (rows : List (List Cell)) : ℕ :=
  (rows.findIdx? (fun r => r.any salesHeaderTrigger)).getD 0

/-- The header row selected by `parseSalesExcel`. -/
def salesHeaderRow (rows : List (List Cell)) : List Cell :=
  rows.getD (salesHeaderIdx rows) []

/-- The target/plan column index of `parseSalesExcel`
(`headerRow.findIndex(c => c is target units or plan)`, `-1` when absent). -/
def salesTargetIdx (rows : List (List Cell)) : ℤ :=
  jsFindIndex (fun c =>
    strLower (cellToString c) == "target units" || strLower (cellToString c) == "plan")
    (salesHeaderRow rows)

/-- Sales fact extractor (`parseSalesExcel` in `src/services/data-parsers.ts`).
Header-row selection falls back to row 0 (`|| rows[0]`); `row === headerRow`
is modelled by skipping the selected header index. -/
def parseSalesExcel (rows : List (List Cell)) (selectedMonth selectedYear : ℕ)
    (isMaster isTerritory : Bool) : List DepartmentMismatch :=
  let fy := getFYLabel selectedMonth selectedYear
  let headerIdx : ℕ := salesHeaderIdx rows
  let headerRow := salesHeaderRow rows
  let teamIdx := jsFindIndex (fun c =>
    strLower (cellToString c) == "teams" || strLower (cellToString c) == "team") headerRow
  let regionIdx := jsFindIndex (fun c => strLower (cellToString c) == "all regions") headerRow
  let productIdx := jsFindIndex (fun c => strHas (strLower (cellToString c)) "product") headerRow
  let targetIdx := salesTargetIdx rows
  let dateColumnMap := if isMaster then [] else salesDateColumnMap headerRow selectedMonth
  let daysToProcess : List ℕ := if isMaster then [0] else recordKeys dateColumnMap
  daysToProcess.foldl
    (salesDayStep rows headerIdx teamIdx regionIdx productIdx targetIdx dateColumnMap isMaster
      selectedMonth selectedYear fy) []

/-! ### Calendar helpers -/

def isLeapYear (y : ℕ) : Bool := (y % 4 == 0 && y % 100 != 0) || y % 400 == 0

/-- JS `new Date(year, month + 1, 0).getDate()` for a 0-based month in
0–11 (all call sites satisfy this). -/
def daysInMonth (year month : ℕ) : ℕ :=
  [31, if isLeapYear year then 29 else 28, 31, 30, 31, 30, 31, 31, 30, 31, 30, 31].getD month 30

/-- Join the cells of a row with the pipe character (JS `row.join("|")`). -/
def joinPipe (r : List Cell) : String :=
  ⟨List.intercalate ['|'] (r.map (fun c => (cellToString c).data))⟩

/-! ### Production allocator and parser (`src/services/data-parsers.ts`;
the allocator is duplicated verbatim in
`src/components/ProductionEntry.tsx`) -/

/-- Production Master/Target Allocator (`calculateDailyPlans`): the last 7
calendar days get `basePlan * 1.05`, earlier days split the remainder
evenly, and the rounding difference is added to the final day. -/
def calculateDailyPlans (monthlyPlan : JNum) (dim : ℕ) : List JNum :=
  let basePlan := monthlyPlan / JNum.val (dim : ℚ)
  let last7DaysPlan := basePlan * JNum.val (mkRat 105 100)  -- 1.05, kernel-reducible
  let last7DaysTotal := last7DaysPlan * JNum.val 7
  let remainingDays := JNum.val (dim : ℚ) - JNum.val 7
  let remainingPlan := monthlyPlan - last7DaysTotal
  let earlyDayPlan := remainingPlan / remainingDays
  let plans := (List.range dim).map (fun (i : ℕ) =>
    if ((dim : ℤ) - 7) < ((i : ℤ) + 1) then last7DaysPlan else earlyDayPlan)
  let totalPlanned := JNum.sumJ plans
  let diff := monthlyPlan - totalPlanned
  match plans with
  | [] => []
  | _ => plans.set (plans.length - 1) (plans.getD (plans.length - 1) (JNum.val 0) + diff)

/-- Planned/achieved pair of one day in a production report. -/
structure DailyDatum where
  day : ℕ
  planned : JNum
  achieved : JNum
  variance : JNum
  percentage : JNum
deriving DecidableEq

/-- One product line ("particular") of a production report. -/
structure Particular where
  name : String
  monthlyPlan : JNum
  totalAchieved : JNum
  dailyData : List DailyDatum
  mtdPlan : JNum
  mtdAchieved : JNum
  mtdPercentage : JNum
  remaining : JNum
deriving DecidableEq

/-- A production report.  The wall-clock `reportDate` field
(`new Date().toISOString()`) is omitted from the model. -/
structure ProductionReport where
  month : String
  monthKey : String
  particulars : List Particular
  totalMonthlyPlan : JNum
  totalAchieved : JNum
  totalRemaining : JNum
  overallPercentage : JNum
  daysInMonth : ℕ
deriving DecidableEq

/-- Data row handling of `parseProductionExcel`: `none` when the row is
skipped (empty/total/"product category" name, or zero monthly plan). -/
def productionRowParse (monthlyPlanCol firstDailyCol : ℤ) (dim : ℕ) (row : List Cell) :
    Option Particular :=
  let name := jsTrim (cellStrOr (cellAt row 0) "")
  if name == "" || strHas (strLower name) "total" || strLower name == "product category" then none
  else
    let monthlyPlan := cleanValue (cellAt row monthlyPlanCol)
    if monthlyPlan == JNum.val 0 then none
    else
      let dailyAchieved := (List.range dim).map (fun d0 =>
        let col := firstDailyCol + (d0 : ℤ)
        if col < (row.length : ℤ) then cleanValue (cellAt row col) else JNum.val 0)
      let totalAchieved := JNum.sumJ dailyAchieved
      let dailyPlans := calculateDailyPlans monthlyPlan dim
      let dailyData := dailyPlans.enum.map (fun p =>
        let achieved := dailyAchieved.getD p.1 JNum.nan
        { day := p.1 + 1, planned := p.2, achieved := achieved,
          variance := achieved - p.2,
          percentage := if JNum.gtb p.2 (JNum.val 0) then achieved / p.2 * JNum.val 100 else JNum.val 0 })
      let lastDay :=
        match dailyAchieved.enum.reverse.find? (fun p => JNum.gtb p.2 (JNum.val 0)) with
        | some p => p.1 + 1
        | none => dim
      let mtdPlan := JNum.sumJ (dailyPlans.take lastDay)
      let mtdAchieved := JNum.sumJ (dailyAchieved.take lastDay)
      some
        { name := name, monthlyPlan := monthlyPlan, totalAchieved := totalAchieved,
          dailyData := dailyData, mtdPlan := mtdPlan, mtdAchieved := mtdAchieved,
          mtdPercentage := if JNum.gtb mtdPlan (JNum.val 0) then mtdAchieved / mtdPlan * JNum.val 100 else JNum.val 0,
          remaining := monthlyPlan - totalAchieved }

/-- Header trigger of the production parser: the joined, lower-cased row
contains "product" or "plan", and "achiev" or a `DD/MM/YYYY` date. -/
def productionHeaderPred (r : List Cell) : Bool :=
  let rowStr := strLower (joinPipe r)
  (strHas rowStr "product" || strHas rowStr "plan")
    && (strHas rowStr "achiev" || slashDateSearch rowStr.data)

/-- Production fact extractor (`parseProductionExcel` in data-parsers.ts). -/
def parseProductionExcel (rows : List (List Cell)) (selectedMonth selectedYear : ℕ) :
    Except String ProductionReport :=
  match (rows.take 10).findIdx? productionHeaderPred with
  | none => .error "Missing Production headers"
  | some headerRowIdx =>
    let headers := rows.getD headerRowIdx []
    let mpc := jsFindIndex (fun h =>
      strHas (strLower (cellToString h)) "plan"
        && (strHas (strLower (cellToString h)) "unit" || strHas (strLower (cellToString h)) "no.")) headers
    let monthlyPlanCol : ℤ := if mpc == -1 then 1 else mpc
    let firstDailyCol : ℤ :=
      match headers.enum.find? (fun p =>
        (p.1 : ℤ) > monthlyPlanCol
          && (strHas (strLower (cellToString p.2)) "achiev"
            || slashDateSearch (strLower (cellToString p.2)).data)) with
      | some p => (p.1 : ℤ)
      | none => monthlyPlanCol + 1
    let dim := daysInMonth selectedYear selectedMonth
    let particulars := (rows.drop (headerRowIdx + 1)).filterMap
      (productionRowParse monthlyPlanCol firstDailyCol dim)
    .ok
      { month := MONTH_NAMES.getD selectedMonth "undefined" ++ " " ++ toString selectedYear,
        monthKey := toString selectedYear ++ "-" ++ toString selectedMonth,
        particulars := particulars,
        totalMonthlyPlan := JNum.sumJ (particulars.map (·.monthlyPlan)),
        totalAchieved := JNum.sumJ (particulars.map (·.totalAchieved)),
        totalRemaining := JNum.sumJ (particulars.map (·.remaining)),
        overallPercentage := JNum.val 0,
        daysInMonth := dim }

/-! ### Finance data model and parser (`src/services/data-parsers.ts`) -/

/-- Projected/actual pair of one week in a finance category. -/
structure FinanceWeek where
  weekLabel : String
  weekNumber : ℕ
  projected : JNum
  actual : JNum
  variance : JNum
  percentage : JNum
deriving DecidableEq

/-- A finance category (inflow or outflow row).  `remarks` only exists on
the FinanceEntry variant and defaults to the empty string. -/
structure FinanceCategory where
  name : String
  ctype : String
  weeks : List FinanceWeek
  totalProjected : JNum
  totalActual : JNum
  percentage : JNum
  remarks : String := ""
deriving DecidableEq

structure BalancePA where
  projected : JNum
  actual : JNum
deriving DecidableEq

structure BalancePAV where
  projected : JNum
  actual : JNum
  variance : JNum
deriving DecidableEq

structure FlowPA where
  projected : JNum
  actual : JNum
  percentage : JNum
deriving DecidableEq

/-- A finance report.  The wall-clock `reportDate` field is omitted from
the model. -/
structure FinanceMismatchReport where
  month : String
  monthKey : String
  openingBalance : BalancePA
  closingBalance : BalancePAV
  inflow : FlowPA
  outflow : FlowPA
  netPosition : BalancePAV
  inflowCategories : List FinanceCategory
  outflowCategories : List FinanceCategory
deriving DecidableEq

/-- Section walker of `parseFinanceExcel` (data-parsers.ts): rows in
`[start, stop)`, skipping blank/total/section-label rows. -/
def financeSection (rows : List (List Cell)) (particularsColIdx : ℤ)
    (weekCols : List (String × ℕ × ℕ)) (start stop : ℤ) (ctype : String) :
    List FinanceCategory :=
  (rows.enum.filter (fun p => start ≤ (p.1 : ℤ) && (p.1 : ℤ) < stop)).filterMap (fun p =>
    let row := p.2
    let name := jsTrim (cellStrOr (cellAt row particularsColIdx) "")
    if name == "" || strHas (strLower name) "total" || strLower name == "inflow"
        || strLower name == "outflow" then none
    else
      let weeks := weekCols.enum.map (fun w =>
        let proj := cleanValue (cellAt row (w.2.2.1 : ℤ))
        let act := cleanValue (cellAt row (w.2.2.2 : ℤ))
        { weekLabel := w.2.1, weekNumber := w.1 + 1, projected := proj, actual := act,
          variance := act - proj,
          percentage := if JNum.gtb proj (JNum.val 0) then act / proj * JNum.val 100 else JNum.val 0 })
      some
        { name := name, ctype := ctype, weeks := weeks,
          totalProjected := JNum.sumJ (weeks.map (·.projected)),
          totalActual := JNum.sumJ (weeks.map (·.actual)),
          percentage := JNum.val 0 })

/-- Header trigger of the finance parser: the joined, lower-cased row
contains "particulars". -/
def financeHeaderPred (r : List Cell) : Bool :=
  strHas (strLower (joinPipe r)) "particulars"

/-- Finance parser (`parseFinanceExcel` in data-parsers.ts).  Note that this
variant returns all balances and section totals as zero; the recomputation
happens in the FinanceEntry upload path. -/
def parseFinanceExcel (rows : List (List Cell)) (selectedMonth selectedYear : ℕ) :
    Except String FinanceMismatchReport :=
  match (rows.take 50).findIdx? financeHeaderPred with
  | none => .error "Missing Finance headers"
  | some headerRowIdx =>
    let particularsColIdx : ℤ :=
      jsFindIndex (fun c => jsTrim (strLower (cellToString c)) == "particulars")
        (rows.getD headerRowIdx [])
    let headers := (rows.getD headerRowIdx []).map (fun h => jsTrim (cellToString h))
    let weekCols : List (String × ℕ × ℕ) := headers.enum.foldl (fun acc p =>
      if (weekHeaderTest p.2 || (strHas (strLower p.2) "week" && !strHas (strLower p.2) "total"))
          && p.1 + 1 < headers.length then
        acc ++ [(p.2, p.1, p.1 + 1)]
      else acc) []
    let inflowStart0 := jsFindIndex
      (fun r => jsTrim (strLower (cellToString (cellAt r particularsColIdx))) == "inflow") rows
    let outflowStart := jsFindIndex
      (fun r => jsTrim (strLower (cellToString (cellAt r particularsColIdx))) == "outflow") rows
    let inflowStart : ℤ := if inflowStart0 == -1 then (headerRowIdx : ℤ) + 1 else inflowStart0
    let inflowCats := financeSection rows particularsColIdx weekCols inflowStart
      (if outflowStart != -1 then outflowStart else (rows.length : ℤ)) "inflow"
    let outflowCats :=
      if outflowStart != -1 then
        financeSection rows particularsColIdx weekCols outflowStart (rows.length : ℤ) "outflow"
      else []
    .ok
      { month := MONTH_NAMES.getD selectedMonth "undefined" ++ " " ++ toString selectedYear,
        monthKey := toString selectedYear ++ "-" ++ toString selectedMonth,
        openingBalance := { projected := JNum.val 0, actual := JNum.val 0 },
        closingBalance := { projected := JNum.val 0, actual := JNum.val 0, variance := JNum.val 0 },
        inflow := { projected := JNum.val 0, actual := JNum.val 0, percentage := JNum.val 0 },
        outflow := { projected := JNum.val 0, actual := JNum.val 0, percentage := JNum.val 0 },
        netPosition := { projected := JNum.val 0, actual := JNum.val 0, variance := JNum.val 0 },
        inflowCategories := inflowCats,
        outflowCategories := outflowCats }

/-! ### Sales daily-target allocator (`src/components/Dashboard.tsx`) -/

/-- Predicate `isLastDay(year, month, day)`: `new Date(year, month, day + 1)` falls in
a different month, i.e. `day` is at least the month's day count. -/
def isLastDay (year month day : ℕ) : Bool := daysInMonth year month ≤ day

/-- Function `getDailyTarget` from the Dashboard: weight 3.5 on the closing day,
`Math.round` on every returned value.  `workingDaysCount` is the component's
working-day count (holidays excluded, `|| 26` fallback applied by the
caller). -/
def getDailyTarget (workingDaysCount selectedYear selectedMonth : ℕ)
    (totalPlan : ℚ) (day : ℕ) : ℤ :=
  let weightOfLastDay : ℚ := mkRat 35 10
  let totalWeights : ℚ := ratAdd (ratSub (workingDaysCount : ℚ) 1) weightOfLastDay
  if isLastDay selectedYear selectedMonth day then
    jsRound (ratMul (ratDiv totalPlan totalWeights) weightOfLastDay)
  else
    jsRound (ratDiv totalPlan totalWeights)

/-! ### Upload handler of the main data-entry component (unnamed source
file `part_007`), sales/territory branch -/

/-- JS `teamFound.charAt(0) + teamFound.slice(1).toLowerCase()` for an
upper-case team name. -/
def jsTitleFromUpper (t : String) : String :=
  match t.data with
  | [] => ""
  | c :: r => ⟨c :: r.map Char.toLower⟩

def daysInYear (y : ℕ) : ℕ := if isLeapYear y then 366 else 365

def monthLengths (y : ℕ) : List ℕ :=
  [31, if isLeapYear y then 29 else 28, 31, 30, 31, 30, 31, 31, 30, 31, 30, 31]

/-- Model of `XLSX.SSF.parse_date_code` for serial numbers ≥ 61 (all call sites
restrict to 40000 < serial < 50000): day/month(1-based)/year of
1900-01-01 plus (serial − 2) days. -/
def dateFromSerial (n : ℕ) : ℕ × ℕ × ℕ :=
  let yearFold := (List.range 200).foldl
    (fun (st : ℕ × ℕ) _ =>
      if daysInYear st.1 ≤ st.2 then (st.1 + 1, st.2 - daysInYear st.1) else st)
    (1900, n - 2)
  let y := yearFold.1
  let monthFold := (monthLengths y).foldl
    (fun (st : ℕ × ℕ × Bool) len =>
      if st.2.2 then st
      else if st.2.1 < len then (st.1, st.2.1, true)
      else (st.1 + 1, st.2.1 - len, false))
    (1, yearFold.2, false)
  (monthFold.2.1 + 1, monthFold.1, y)

/-- The string `"$\x7bdate.d\x7d/$\x7bdate.m\x7d/$\x7bdate.y\x7d"` rebuilt from a serial
date code (fractional serials are floored, as in `parse_date_code`). -/
def serialDateString (q : ℚ) : String :=
  let t := dateFromSerial (ratFloor q).toNat
  toString t.1 ++ "/" ++ toString t.2.1 ++ "/" ++ toString t.2.2

/-- JS `String.prototype.split` on one character. -/
def splitOnChar (sep : Char) : List Char → List (List Char)
  | [] => [[]]
  | c :: t =>
    let r := splitOnChar sep t
    if c == sep then [] :: r
    else
      match r with
      | h :: t2 => (c :: h) :: t2
      | [] => [[c]]

/-- Date-column map of the part_007 upload handler.  Priority 1 scans the
header row for `DD-MMM-YY(YY)` (via the local `monthMap` of three-letter
abbreviations) and `DD-MM-YY(YY)` patterns; the two patterns are mutually
exclusive on any one cell, so the source's fall-through is modelled as a
`match` cascade.  If no header cell matched, priority 2 scans the first 15
rows and 100 columns for spreadsheet serial date codes or slash dates.
Negative day keys (possible only through a pathological priority-2 split)
are dropped; no theorem below touches that corner. -/
def part007DateColumnMap (headerRow : List Cell) (rows : List (List Cell))
    (fileMonth fileYear : ℕ) : List (ℕ × ℕ) :=
  let prio1 := headerRow.enum.foldl (fun acc p =>
    let str := jsTrim (cellStrOr p.2 "")
    match matchDMY 2 4 str.data with
    | some (ds, ms, ys) =>
      let mStr := titleCase ⟨ms⟩
      match (monthMap.find? (fun q => q.1 == mStr)).map Prod.snd with
      | some m =>
        let rawY := digitsToNat ys
        let y := if rawY < 100 then 2000 + rawY else rawY
        if m == fileMonth && y == fileYear then recordSet acc (digitsToNat ds) p.1 else acc
      | none => acc
    | none =>
      match matchNumDate str.data with
      | some (ds, ms2, ys) =>
        let d := digitsToNat ds
        let m := digitsToNat ms2
        let rawY := digitsToNat ys
        let y := if rawY < 100 then 2000 + rawY else rawY
        if (m : ℤ) - 1 == (fileMonth : ℤ) && y == fileYear then recordSet acc d p.1 else acc
      | none => acc) []
  if prio1.length == 0 then
    (rows.take 15).foldl (fun acc row =>
      (List.range 100).foldl (fun acc2 (c : ℕ) =>
        let cellVal0 := jsTrim (cellStrOr (cellAt row (c : ℤ)) "")
        let cellVal :=
          match jsNumber cellVal0 with
          | some q =>
            if decide (4 < cellVal0.data.length) && decide ((40000 : ℚ) < q) && decide (q < 50000) then
              serialDateString q
            else cellVal0
          | none => cellVal0
        if strHas cellVal "/" && (splitOnChar '/' cellVal.data).length == 3 then
          match splitOnChar '/' cellVal.data with
          | [p1, p2, p3] =>
            (match jsParseInt ⟨p1⟩, jsParseInt ⟨p2⟩, jsParseInt ⟨p3⟩ with
             | some d, some m, some rawY =>
               let y := if rawY < 100 then 2000 + rawY else rawY
               if m - 1 == (fileMonth : ℤ) && y == (fileYear : ℤ) && 0 ≤ d then
                 recordSet acc2 d.toNat c
               else acc2
             | _, _, _ => acc2)
          | _ => acc2
        else acc2) acc) prio1
  else prio1

/-- The row-major scan for a master target column (`TGT`/`TARGET`/`PLAN`/
`TARGET UNITS`) over the first 25 rows and 40 columns. -/
def findMasterCol (rows : List (List Cell)) (rmax cmax : ℕ) : ℤ :=
  match (rows.take rmax).findSome? (fun row =>
    (row.take cmax).findIdx? (fun cell =>
      let v := strUpper (jsTrim (cellStrOr cell ""))
      v == "TGT" || v == "TARGET" || v == "PLAN" || v == "TARGET UNITS")) with
  | some i => (i : ℤ)
  | none => -1

/-- One row of the part_007 fact-emission loop (daily or master, sales or
territory).  A row whose team cell names a known team only updates
`currentTeam` and is skipped. -/
def p7RowStep (headerIdx : ℕ) (teamHeaderIdx regionHeaderIdx productHeaderIdx territoryHeaderIdx : ℤ)
    (dataColumnIndex : ℤ) (isMaster isTerritoryTab : Bool) (reportDateStr : String)
    (st : String × List DepartmentMismatch) (rp : ℕ × List Cell) :
    String × List DepartmentMismatch :=
  if rp.1 == headerIdx then st
  else
    let row := rp.2
    let teamSearchIdx := if teamHeaderIdx != -1 then teamHeaderIdx else productHeaderIdx
    let rawTeamVal := jsTrim (cellStrOr (cellAt row teamSearchIdx) "")
    match SALES_TEAMS.find? (fun t => strUpper rawTeamVal == t) with
    | some t => (jsTitleFromUpper t, st.2)
    | none =>
      if st.1 == "" then st
      else
        let currentTeam := st.1
        let regionVal := if regionHeaderIdx != -1 then jsTrim (cellStrOr (cellAt row regionHeaderIdx) "") else ""
        let territoryVal := if territoryHeaderIdx != -1 then jsTrim (cellStrOr (cellAt row territoryHeaderIdx) "") else ""
        let productVal := if productHeaderIdx != -1 then jsTrim (cellStrOr (cellAt row productHeaderIdx) "") else ""
        if strHas (strLower territoryVal) "total" || strHas (strLower regionVal) "total"
            || strHas (strLower productVal) "total" then (currentTeam, st.2)
        else
          let rawVal0 := jsTrim (dropCommas (cellStrOr (cellAt row dataColumnIndex) "0"))
          let rawVal := if rawVal0 == "-" || rawVal0 == "—" || rawVal0 == "" then "0" else rawVal0
          match jsParseFloat rawVal with
          | .nan => (currentTeam, st.2)
          | .val numericVal =>
            if isTerritoryTab then
              let teamName := if currentTeam == "" then "Unmapped Team" else currentTeam
              let detailName :=
                if territoryVal != "" then
                  territoryVal ++ (if regionVal != "" then " - " ++ regionVal else "")
                else if regionVal != "" then regionVal else "Unmapped Territory"
              (currentTeam, st.2 ++
                [{ department := "Territory Sales", team := teamName, metric := detailName,
                   plan := if isMaster then JNum.val numericVal else JNum.val 0,
                   actual := if isMaster then JNum.val 0 else JNum.val numericVal,
                   variance := if isMaster then JNum.val (ratNeg numericVal) else JNum.val numericVal,
                   unit := "Units", status := "on-track", reportDate := reportDateStr }])
            else
              let metricName :=
                if productVal != "" then productVal
                else if territoryVal != "" then territoryVal else regionVal
              if metricName == "" then (currentTeam, st.2)
              else
                (currentTeam, st.2 ++
                  [{ department := "Sales", team := currentTeam, metric := metricName,
                     plan := if isMaster then JNum.val numericVal else JNum.val 0,
                     actual := if isMaster then JNum.val 0 else JNum.val numericVal,
                     variance := if isMaster then JNum.val (ratNeg numericVal) else JNum.val numericVal,
                     unit := "Units", status := "on-track", reportDate := reportDateStr }])

/-- Header-row index chosen by the part_007 handler (fallback: row 0). -/
def p7HeaderIdx (rows : List (List Cell)) : ℕ :=
  (rows.findIdx? (fun r => r.any (fun c =>
    let low := strLower (cellToString c)
    low == "teams" || low == "team" || low == "brands" || low == "all regions"
      || low == "products" || low == "product_name" || low == "target units"
      || low == "row labels"))).getD 0

def p7HeaderRow (rows : List (List Cell)) : List Cell := rows.getD (p7HeaderIdx rows) []

def p7TerritoryIdx (rows : List (List Cell)) : ℤ :=
  jsFindIndex (fun c =>
    let low := strLower (cellToString c)
    low == "territory" || low == "territory name") (p7HeaderRow rows)

def p7DateColumnMap (rows : List (List Cell)) (fileMonth fileYear : ℕ) : List (ℕ × ℕ) :=
  part007DateColumnMap (p7HeaderRow rows) rows fileMonth fileYear

/-- The sales/territory branch of `handleUpload` in part_007 (non-trade
path), from header detection to the collected entries; `Except.error`
models an entry pushed into the handler's per-file `errors` list followed
by `resolve()`. -/
def part007HandleUpload (fileName : String) (rows : List (List Cell))
    (fileMonth fileYear : ℕ) (isMaster isTerritoryTab : Bool) :
    Except String (List DepartmentMismatch) :=
  let headerIdx := p7HeaderIdx rows
  let headerRow := rows.getD headerIdx []
  let teamHeaderIdx := jsFindIndex (fun c =>
    let low := strLower (cellToString c)
    low == "team" || low == "teams" || low == "sales force" || low == "sales force name"
      || low == "salesforce" || low == "sf name") headerRow
  let regionHeaderIdx := jsFindIndex (fun c =>
    let low := strLower (cellToString c)
    low == "all regions" || low == "region" || low == "division" || low == "region name") headerRow
  let productHeaderIdx := jsFindIndex (fun c =>
    let low := strLower (cellToString c)
    low == "products" || low == "product_name" || low == "product name" || low == "brand"
      || low == "brands" || low == "row labels") headerRow
  let territoryHeaderIdx := p7TerritoryIdx rows
  let _targetUnitsIdx := jsFindIndex (fun c =>
    let low := strLower (cellToString c)
    low == "target units" || low == "pm saleunits") headerRow
  let _monthHeaderIdx := jsFindIndex (fun c => strLower (cellToString c) == "month") headerRow
  if !isTerritoryTab && territoryHeaderIdx != -1 then
    .error (fileName ++ ": This file contains a \"Territory\" column. Please upload Territory Sales data in the \"Territory\" tab.")
  else if isTerritoryTab && territoryHeaderIdx == -1 then
    .error (fileName ++ ": This file is missing the required \"Territory\" column for Territory Sales data.")
  else
    let dateColumnMap := if isMaster then [] else p7DateColumnMap rows fileMonth fileYear
    let targetDays := if isMaster then [0] else recordKeys dateColumnMap
    if !isMaster && targetDays.length == 0 then
      .error (fileName ++ ": No valid date columns for " ++ MONTH_NAMES.getD fileMonth "undefined"
        ++ " " ++ toString fileYear ++ " found")
    else
      .ok (targetDays.foldl (fun acc day =>
        let dataColumnIndex : ℤ :=
          if isMaster then findMasterCol rows 25 40
          else match recordGet dateColumnMap day with
            | some c => (c : ℤ)
            | none => -1
        if dataColumnIndex == -1 then acc
        else
          let dStr := if day < 10 then "0" ++ toString day else toString day
          let reportDateStr :=
            if isMaster then "MASTER_" ++ MONTH_NAMES.getD fileMonth "undefined" ++ "_" ++ toString fileYear
            else MONTH_NAMES.getD fileMonth "undefined" ++ " " ++ dStr ++ ", " ++ toString fileYear
          (rows.enum.foldl
            (p7RowStep headerIdx teamHeaderIdx regionHeaderIdx productHeaderIdx territoryHeaderIdx
              dataColumnIndex isMaster isTerritoryTab reportDateStr) ("", acc)).2) [])

/-! ### Finance batch merge (`src/Delivery Package/components/FinanceEntry.tsx`,
`handleFileUpload` merge section) -/

/-- Merge one incoming week into the week list of a category: replace the first
week with the same `weekLabel`, else append. -/
def mergeWeekInto (weeks : List FinanceWeek) (nw : FinanceWeek) : List FinanceWeek :=
  match weeks.findIdx? (fun w => w.weekLabel == nw.weekLabel) with
  | some i => weeks.set i nw
  | none => weeks ++ [nw]

/-- JS `weeks.sort((a, b) => a.weekNumber - b.weekNumber)`: stable sort by
week number. -/
def sortWeeks (ws : List FinanceWeek) : List FinanceWeek :=
  List.insertionSort (fun a b => a.weekNumber ≤ b.weekNumber) ws

/-- Merge an incoming category into an existing one of the same name: merge
weeks by label, re-sort, recompute the totals and percentage. -/
def mergeCat (c nc : FinanceCategory) : FinanceCategory :=
  let ws := sortWeeks (nc.weeks.foldl mergeWeekInto c.weeks)
  let tp := JNum.sumJ (ws.map (·.projected))
  let ta := JNum.sumJ (ws.map (·.actual))
  { c with
    weeks := ws
    totalProjected := tp
    totalActual := ta
    percentage := if JNum.gtb tp (JNum.val 0) then ta / tp * JNum.val 100 else JNum.val 0 }

/-- Function `mergeCats`: merge incoming categories into the base list by exact name
match (first match wins), appending new names. -/
def mergeCats (base news : List FinanceCategory) : List FinanceCategory :=
  news.foldl (fun b nc =>
    match b.findIdx? (fun c => c.name == nc.name) with
    | some i => b.set i (mergeCat (b.getD i nc) nc)
    | none => b ++ [nc]) base

/-- Function `reCalcTotal`: section totals as sums of the stored category totals. -/
def reCalcTotal (cats : List FinanceCategory) : JNum × JNum :=
  (JNum.sumJ (cats.map (·.totalProjected)), JNum.sumJ (cats.map (·.totalActual)))

/-- The merge phase of `handleFileUpload`: fold the remaining reports into
the first, then recompute section totals, closing balance and net
position.  (The source runs this exactly when at least one report was
parsed, hence the `first`/`rest` split.) -/
def mergeFinanceReports (first : FinanceMismatchReport)
    (rest : List FinanceMismatchReport) : FinanceMismatchReport :=
  let master := rest.foldl (fun acc r =>
    { acc with
      openingBalance :=
        if acc.openingBalance.projected == JNum.val 0 then r.openingBalance
        else acc.openingBalance
      inflowCategories := mergeCats acc.inflowCategories r.inflowCategories
      outflowCategories := mergeCats acc.outflowCategories r.outflowCategories }) first
  let ti := reCalcTotal master.inflowCategories
  let tO := reCalcTotal master.outflowCategories
  let netProj := master.openingBalance.projected + ti.1 - tO.1
  let netAct := master.openingBalance.actual + ti.2 - tO.2
  { master with
    inflow := { projected := ti.1, actual := ti.2,
                percentage := if JNum.gtb ti.1 (JNum.val 0) then ti.2 / ti.1 * JNum.val 100 else JNum.val 0 }
    outflow := { projected := tO.1, actual := tO.2,
                 percentage := if JNum.gtb tO.1 (JNum.val 0) then tO.2 / tO.1 * JNum.val 100 else JNum.val 0 }
    closingBalance := { projected := netProj, actual := netAct, variance := netAct - netProj }
    netPosition := { projected := ti.1 - tO.1, actual := ti.2 - tO.2,
                     variance := (ti.2 - tO.2) - (ti.1 - tO.1) } }

/-! ### Well-formedness predicates and projections used by the theorems -/

/-- Category names of a section are pairwise distinct. -/
def namesNodup (cats : List FinanceCategory) : Prop := (cats.map (·.name)).Nodup

/-- A category as a parser produces it: distinct week labels, and stored
totals equal to the sums of its weeks. -/
def catConsistent (c : FinanceCategory) : Prop :=
  (c.weeks.map (·.weekLabel)).Nodup
    ∧ c.totalProjected = JNum.sumJ (c.weeks.map (·.projected))
    ∧ c.totalActual = JNum.sumJ (c.weeks.map (·.actual))

instance (cats : List FinanceCategory) : Decidable (namesNodup cats) := by
  unfold namesNodup; infer_instance

instance (c : FinanceCategory) : Decidable (catConsistent c) := by
  unfold catConsistent; infer_instance

/-- Name and stored totals of a category (the data C9 compares). -/
def catKey (c : FinanceCategory) : String × JNum × JNum :=
  (c.name, c.totalProjected, c.totalActual)

/-- Placeholder fact record for `List.getD`. -/
def blankEntry : DepartmentMismatch :=
  { department := "", team := "", metric := "", plan := JNum.val 0, actual := JNum.val 0,
    variance := JNum.val 0, unit := "", status := "", reportDate := "" }

/-- Placeholder particular for `List.getD`. -/
def blankParticular : Particular :=
  { name := "", monthlyPlan := JNum.val 0, totalAchieved := JNum.val 0, dailyData := [],
    mtdPlan := JNum.val 0, mtdAchieved := JNum.val 0, mtdPercentage := JNum.val 0,
    remaining := JNum.val 0 }

/-- Placeholder production report for `Except.toOption.getD`. -/
def blankProductionReport : ProductionReport :=
  { month := "", monthKey := "", particulars := [], totalMonthlyPlan := JNum.val 0,
    totalAchieved := JNum.val 0, totalRemaining := JNum.val 0, overallPercentage := JNum.val 0,
    daysInMonth := 0 }

/-! ### Concrete inputs used by counterexamples and witnesses -/

/-- The grid of the round-trip scenario in the spec (C4): header
`Teams | Products | 01-Nov-25`, one data row. -/
def c4Grid : List (List Cell) :=
  [[Cell.str "Teams", Cell.str "Products", Cell.str "01-Nov-25"],
   [Cell.str "ACHIEVERS", Cell.str "ProductX", Cell.str "150"]]

/-- A daily sales grid whose only date column is October while November is
requested. -/
def c1Grid : List (List Cell) :=
  [[Cell.str "Teams", Cell.str "Products", Cell.str "01-Oct-25"],
   [Cell.str "ACHIEVERS", Cell.str "ProductX", Cell.str "150"]]

/-- A master sales grid with no recognized header trigger token in any row
("Plan" is a target column synonym but not a header trigger). -/
def c5Grid : List (List Cell) :=
  [[Cell.str "x", Cell.str "Plan", Cell.str "y"],
   [Cell.str "ACHIEVERS", Cell.str "4646"]]

/-- A finance grid without any "particulars" token. -/
def c5FinGrid : List (List Cell) :=
  [[Cell.str "alpha", Cell.str "beta"], [Cell.str "gamma"]]

/-- A production grid without the production header signature. -/
def c5ProdGrid : List (List Cell) :=
  [[Cell.str "alpha", Cell.str "beta"], [Cell.str "gamma"]]

/-- The master scenario grid from the spec (C7 witness). -/
def c7Grid : List (List Cell) :=
  [[Cell.str "Teams", Cell.str "Products", Cell.str "Target Units"],
   [Cell.str "ACHIEVERS", Cell.str "ProductX", Cell.str "4646"]]

/-- A production grid with one kept particular and one zero-plan row
(C10 witness). -/
def c10Grid : List (List Cell) :=
  [[Cell.str "Product Category", Cell.str "Plan Units", Cell.str "Achievement"],
   [Cell.str "Alpha", Cell.str "60", Cell.str "2"],
   [Cell.str "Beta", Cell.str "0", Cell.str "5"]]

def mkWeek (lbl : String) (n : ℕ) (p a : ℚ) : FinanceWeek :=
  { weekLabel := lbl, weekNumber := n, projected := JNum.val p, actual := JNum.val a,
    variance := JNum.val (ratSub a p),
    percentage := JNum.val 0 }

/-- A well-formed finance report: distinct category names, distinct week
labels, stored totals equal to the week sums (C9 witness input). -/
def c9OkReport : FinanceMismatchReport :=
  { month := "November 2025", monthKey := "2025-10",
    openingBalance := { projected := JNum.val 5, actual := JNum.val 7 },
    closingBalance := { projected := JNum.val 0, actual := JNum.val 0, variance := JNum.val 0 },
    inflow := { projected := JNum.val 0, actual := JNum.val 0, percentage := JNum.val 0 },
    outflow := { projected := JNum.val 0, actual := JNum.val 0, percentage := JNum.val 0 },
    netPosition := { projected := JNum.val 0, actual := JNum.val 0, variance := JNum.val 0 },
    inflowCategories :=
      [{ name := "Sales", ctype := "inflow", weeks := [mkWeek "1 TO 7" 1 10 12, mkWeek "8 TO 14" 2 20 18],
         totalProjected := JNum.val 30, totalActual := JNum.val 30, percentage := JNum.val 0 }],
    outflowCategories :=
      [{ name := "Rent", ctype := "outflow", weeks := [mkWeek "1 TO 7" 1 5 6],
         totalProjected := JNum.val 5, totalActual := JNum.val 6, percentage := JNum.val 0 }] }

/-- A finance report with two inflow categories sharing the name "X" (legal
parser output when two spreadsheet rows carry the same particulars text);
used to refute C9 as stated. -/
def c9DupReport : FinanceMismatchReport :=
  { month := "November 2025", monthKey := "2025-10",
    openingBalance := { projected := JNum.val 0, actual := JNum.val 0 },
    closingBalance := { projected := JNum.val 0, actual := JNum.val 0, variance := JNum.val 0 },
    inflow := { projected := JNum.val 0, actual := JNum.val 0, percentage := JNum.val 0 },
    outflow := { projected := JNum.val 0, actual := JNum.val 0, percentage := JNum.val 0 },
    netPosition := { projected := JNum.val 0, actual := JNum.val 0, variance := JNum.val 0 },
    inflowCategories :=
      [{ name := "X", ctype := "inflow", weeks := [mkWeek "W1" 1 1 10],
         totalProjected := JNum.val 1, totalActual := JNum.val 10, percentage := JNum.val 0 },
       { name := "X", ctype := "inflow", weeks := [mkWeek "W2" 2 2 20],
         totalProjected := JNum.val 2, totalActual := JNum.val 20, percentage := JNum.val 0 }],
    outflowCategories := [] }

/-- The source-linkage invariant of C7: the value the extractor writes into
a fact record is the normalized (`cleanValue`) content of a cell of the
input grid, read at the record's source row and at the resolved data
column — the target/plan column (`targetIdx`) for master files, and the
date-column-map entry of the record's day (`dcm`) for daily files.  That
value appears as `plan` and `−variance` on master records (with the master
sentinel report date) and as `actual` and `+variance` on daily records
(with the day's date string). -/
def c7Src (rows : List (List Cell)) (targetIdx : ℤ) (dcm : List (ℕ × ℕ))
    (im : Bool) (m y : ℕ) (e : DepartmentMismatch) : Prop :=
  ∃ (row : List Cell) (dataIdx : ℤ) (day : ℕ),
    row ∈ rows
    ∧ (im = true → dataIdx = targetIdx)
    ∧ (im = false → ∃ c : ℕ, recordGet dcm day = some c ∧ dataIdx = (c : ℤ))
    ∧ e.plan = (if im then cleanValue (cellAt row dataIdx) else JNum.val 0)
    ∧ e.actual = (if im then JNum.val 0 else cleanValue (cellAt row dataIdx))
    ∧ e.variance =
        (if im then -cleanValue (cellAt row dataIdx) else cleanValue (cellAt row dataIdx))
    ∧ e.reportDate =
        (if im then "MASTER_" ++ MONTH_NAMES.getD m "undefined" ++ "_" ++ toString y
         else MONTH_NAMES.getD m "undefined" ++ " " ++ toString day ++ ", " ++ toString y)

/-! ## Theorems -/

/-- C3: every report produced by the upload-and-merge path satisfies
`closingBalance.actual = openingBalance.actual + totalInflow.actual −
totalOutflow.actual`, where the inflow/outflow totals are recomputed as
sums of the merged categories' stored totals, regardless of any
closing-balance cells in the source grids (which the parse phase never even
reads into the report). -/
theorem finance_merge_closing_balance (first : FinanceMismatchReport)
    (rest : List FinanceMismatchReport) :
    (mergeFinanceReports first rest).closingBalance.actual =
        (mergeFinanceReports first rest).openingBalance.actual
          + (mergeFinanceReports first rest).inflow.actual
          - (mergeFinanceReports first rest).outflow.actual
      ∧ (mergeFinanceReports first rest).inflow.actual =
          JNum.sumJ ((mergeFinanceReports first rest).inflowCategories.map (·.totalActual))
      ∧ (mergeFinanceReports first rest).outflow.actual =
          JNum.sumJ ((mergeFinanceReports first rest).outflowCategories.map (·.totalActual)) := by
  unfold mergeFinanceReports reCalcTotal
  exact ⟨rfl, rfl, rfl⟩

/-- C4 (failing evaluation): on the round-trip grid of the spec,
`[["Teams","Products","01-Nov-25"], ["ACHIEVERS","ProductX","150"]]` with
target month 10 (November) and year 2025 in daily mode, `parseSalesExcel`
recognizes no date column — the three-letter abbreviation "Nov" is looked
up in the full-month-name list `MONTH_NAMES` — and returns the empty fact
list instead of the one expected record. -/
theorem sales_parser_c4_empty_result :
    salesDateColumnMap (c4Grid.getD 0 []) 10 = []
      ∧ parseSalesExcel c4Grid 10 2025 false false = [] := by
  decide

/-- C6 (counterexample): an accounting-parenthesized string whose inner
text is non-numeric is returned as NaN by `cleanValue`, not as 0 — the
parenthesized branch `-1 * parseFloat(...)` has no `|| 0` fallback. -/
theorem cleanValue_paren_nan :
    cleanValue (Cell.str "(abc)") = JNum.nan ∧ JNum.nan ≠ JNum.val 0 := by
  decide

/-- C6 (amended): `cleanValue` never throws (it is a total function by
construction), and for every string that fails to parse as a number and is
not accounting-parenthesized, the result is 0. -/
theorem cleanValue_unparsed_zero (s : String)
    (h1 : (strBegins (jsTrim (dropCommas s)) "(" && strFinishes (jsTrim (dropCommas s)) ")")
        = false)
    (h2 : jsParseFloat (jsTrim (dropCommas s)) = JNum.nan) :
    cleanValue (Cell.str s) = JNum.val 0 := by
  show (if cellFalsy (Cell.str s) then JNum.val 0 else _) = JNum.val 0
  by_cases hf : cellFalsy (Cell.str s)
  · simp [hf]
  · simp only [hf, if_false, Bool.false_eq_true, ite_false]
    simp only [cellToString]
    by_cases hd : (jsTrim (dropCommas s) == "-" || jsTrim (dropCommas s) == "") = true
    · simp [hd]
    · simp only [hd, Bool.false_eq_true, ite_false, h1, h2]

/-- C6 (witness): the plain unparseable string "abc" normalizes to 0. -/
theorem cleanValue_unparsed_zero_witness : cleanValue (Cell.str "abc") = JNum.val 0 :=
  cleanValue_unparsed_zero "abc" (by decide) (by decide)

/-- C1 (counterexample): on a daily grid whose only date column is October
while November 2025 is requested, `parseSalesExcel` raises nothing and
returns the empty fact list — the NoDateColumnsError hard stop exists only
in the upload handler, not in this parser. -/
theorem sales_parser_c1_silent_empty :
    salesDateColumnMap (c1Grid.getD 0 []) 10 = []
      ∧ parseSalesExcel c1Grid 10 2025 false false = [] := by
  decide

/-- C1 (amended): in the part_007 upload handler, a daily (non-master,
non-territory) file whose date-column map resolves to no day is rejected
with an error naming the file and the requested month/year, and no facts
are emitted for it. -/
theorem p7_daily_no_date_columns_error (fileName : String) (rows : List (List Cell))
    (m y : ℕ) (ht : p7TerritoryIdx rows = -1)
    (hd : p7DateColumnMap rows m y = []) :
    part007HandleUpload fileName rows m y false false =
      Except.error (fileName ++ ": No valid date columns for " ++ MONTH_NAMES.getD m "undefined"
        ++ " " ++ toString y ++ " found") := by
  unfold part007HandleUpload
  simp [ht, hd, recordKeys]

/-- C1 (witness): the October-only grid is rejected by the part_007 handler
with the file-naming error for November 2025. -/
theorem p7_daily_no_date_columns_error_witness :
    p7TerritoryIdx c1Grid = -1 ∧ p7DateColumnMap c1Grid 10 2025 = []
      ∧ part007HandleUpload "daily.xlsx" c1Grid 10 2025 false false =
          Except.error "daily.xlsx: No valid date columns for November 2025 found" := by
  refine ⟨by decide, by decide, ?_⟩
  rw [p7_daily_no_date_columns_error "daily.xlsx" c1Grid 10 2025 (by decide) (by decide)]
  exact congrArg Except.error (by decide)

/-- C5 (counterexample): a master grid none of whose rows contains a
recognized header trigger token is not rejected by `parseSalesExcel`; the
parser silently proceeds with row index 0 as the header row and emits a
fact. -/
theorem sales_parser_c5_header_fallback :
    (c5Grid.all (fun r => !(r.any salesHeaderTrigger))) = true
      ∧ (parseSalesExcel c5Grid 10 2025 true false).length = 1 := by
  decide

/-- C5 (amended): the finance and production parsers do fail when no row in
their scan windows (50 and 10 rows) contains their trigger token, with
errors naming the expected header; the sales parser instead falls back to
row index 0. -/
theorem missing_header_failures :
    (∀ (rows : List (List Cell)) (m y : ℕ),
        (∀ r ∈ rows.take 50, financeHeaderPred r = false) →
          parseFinanceExcel rows m y = Except.error "Missing Finance headers")
      ∧ (∀ (rows : List (List Cell)) (m y : ℕ),
          (∀ r ∈ rows.take 10, productionHeaderPred r = false) →
            parseProductionExcel rows m y = Except.error "Missing Production headers") := by
  constructor
  · intro rows m y h
    have hn : (rows.take 50).findIdx? financeHeaderPred = none :=
      List.findIdx?_eq_none_iff.mpr h
    unfold parseFinanceExcel
    rw [hn]
  · intro rows m y h
    have hn : (rows.take 10).findIdx? productionHeaderPred = none :=
      List.findIdx?_eq_none_iff.mpr h
    unfold parseProductionExcel
    rw [hn]

/-- C5 (witness): concrete trigger-free grids are rejected by the finance
and production parsers with the missing-header errors. -/
theorem missing_header_failures_witness :
    parseFinanceExcel c5FinGrid 10 2025 = Except.error "Missing Finance headers"
      ∧ parseProductionExcel c5ProdGrid 10 2025 = Except.error "Missing Production headers" :=
  ⟨missing_header_failures.1 c5FinGrid 10 2025 (by decide),
   missing_header_failures.2 c5ProdGrid 10 2025 (by decide)⟩

theorem jnum_zero_sub (v : JNum) : JNum.val 0 - v = -v := by
  cases v <;> simp

theorem jnum_sub_zero (v : JNum) : v - JNum.val 0 = v := by
  cases v <;> simp

theorem enumFrom_snd_mem {α : Type _} (n : ℕ) (l : List α) :
    ∀ p ∈ List.enumFrom n l, p.2 ∈ l := by
  induction l generalizing n with
  | nil => exact fun p hp => absurd hp (List.not_mem_nil p)
  | cons a t ih =>
    intro p hp
    rcases List.mem_cons.mp hp with rfl | hp2
    · exact List.mem_cons_self a t
    · exact List.mem_cons_of_mem a (ih (n + 1) p hp2)

theorem enum_snd_mem {α : Type _} (l : List α) (p : ℕ × α) (hp : p ∈ l.enum) : p.2 ∈ l :=
  enumFrom_snd_mem 0 l p hp

theorem c7Src_salesEntry (rows : List (List Cell)) (targetIdx : ℤ) (dcm : List (ℕ × ℕ))
    (im : Bool) (m y day : ℕ) (fy team metric : String) (row : List Cell) (dataIdx : ℤ)
    (hrow : row ∈ rows)
    (hmas : im = true → dataIdx = targetIdx)
    (hdai : im = false → ∃ c : ℕ, recordGet dcm day = some c ∧ dataIdx = (c : ℤ)) :
    c7Src rows targetIdx dcm im m y
      (salesEntry im m y day fy team metric (cleanValue (cellAt row dataIdx))) :=
  ⟨row, dataIdx, day, hrow, hmas, hdai, rfl, rfl, rfl, rfl⟩

theorem c7Src_salesEntry_territory (rows : List (List Cell)) (targetIdx : ℤ)
    (dcm : List (ℕ × ℕ)) (im : Bool) (m y day : ℕ) (fy team metric d2 t2 : String)
    (row : List Cell) (dataIdx : ℤ)
    (hrow : row ∈ rows)
    (hmas : im = true → dataIdx = targetIdx)
    (hdai : im = false → ∃ c : ℕ, recordGet dcm day = some c ∧ dataIdx = (c : ℤ)) :
    c7Src rows targetIdx dcm im m y
      { salesEntry im m y day fy team metric (cleanValue (cellAt row dataIdx)) with
          department := d2, team := t2 } :=
  ⟨row, dataIdx, day, hrow, hmas, hdai, rfl, rfl, rfl, rfl⟩

theorem salesRowEmit_src (rows : List (List Cell)) (targetIdx : ℤ) (dcm : List (ℕ × ℕ))
    (regionIdx productIdx dataIdx : ℤ) (im : Bool) (m y day : ℕ)
    (fy currentTeam : String) (row : List Cell)
    (hrow : row ∈ rows)
    (hmas : im = true → dataIdx = targetIdx)
    (hdai : im = false → ∃ c : ℕ, recordGet dcm day = some c ∧ dataIdx = (c : ℤ)) :
    ∀ e ∈ salesRowEmit regionIdx productIdx dataIdx im m y day fy currentTeam row,
      c7Src rows targetIdx dcm im m y e := by
  intro e he
  unfold salesRowEmit at he
  dsimp only [] at he
  repeat' split at he
  all_goals
    first
      | exact absurd he (List.not_mem_nil e)
      | (rcases List.mem_cons.mp he with rfl | he2
         · exact c7Src_salesEntry rows targetIdx dcm im m y day fy currentTeam _ row dataIdx
             hrow hmas hdai
         · first
             | exact absurd he2 (List.not_mem_nil e)
             | (rcases List.mem_cons.mp he2 with rfl | he3
                · exact c7Src_salesEntry_territory rows targetIdx dcm im m y day fy
                    currentTeam _ _ _ row dataIdx hrow hmas hdai
                · exact absurd he3 (List.not_mem_nil e)))

theorem salesRowStep_src (rows : List (List Cell)) (targetIdx : ℤ) (dcm : List (ℕ × ℕ))
    (headerIdx : ℕ) (teamIdx regionIdx productIdx dataIdx : ℤ)
    (im : Bool) (m y day : ℕ) (fy : String)
    (st : String × List DepartmentMismatch) (rp : ℕ × List Cell)
    (hrp : rp.2 ∈ rows)
    (hmas : im = true → dataIdx = targetIdx)
    (hdai : im = false → ∃ c : ℕ, recordGet dcm day = some c ∧ dataIdx = (c : ℤ))
    (h : ∀ e ∈ st.2, c7Src rows targetIdx dcm im m y e) :
    ∀ e ∈ (salesRowStep headerIdx teamIdx regionIdx productIdx dataIdx im m y day fy st rp).2,
      c7Src rows targetIdx dcm im m y e := by
  intro e he
  unfold salesRowStep at he
  dsimp only [] at he
  split at he
  · exact h e he
  · repeat' split at he
    all_goals
      first
        | exact h e he
        | (rcases List.mem_append.mp he with hl | hr
           · exact h e hl
           · exact salesRowEmit_src rows targetIdx dcm regionIdx productIdx dataIdx im m y day
               fy _ rp.2 hrp hmas hdai e hr)

theorem salesRows_fold_src (rows : List (List Cell)) (targetIdx : ℤ) (dcm : List (ℕ × ℕ))
    (headerIdx : ℕ) (teamIdx regionIdx productIdx dataIdx : ℤ)
    (im : Bool) (m y day : ℕ) (fy : String)
    (hmas : im = true → dataIdx = targetIdx)
    (hdai : im = false → ∃ c : ℕ, recordGet dcm day = some c ∧ dataIdx = (c : ℤ))
    (l : List (ℕ × List Cell)) (st : String × List DepartmentMismatch) :
    (∀ p ∈ l, p.2 ∈ rows) → (∀ e ∈ st.2, c7Src rows targetIdx dcm im m y e) →
    ∀ e ∈ (l.foldl (salesRowStep headerIdx teamIdx regionIdx productIdx dataIdx im m y day fy)
        st).2, c7Src rows targetIdx dcm im m y e := by
  induction l generalizing st with
  | nil => exact fun _ h => h
  | cons r t ih =>
    intro hl h
    exact ih _ (fun p hp => hl p (List.mem_cons_of_mem r hp))
      (salesRowStep_src rows targetIdx dcm headerIdx teamIdx regionIdx productIdx dataIdx
        im m y day fy st r (hl r (List.mem_cons_self r t)) hmas hdai h)

theorem salesDayStep_src (rows : List (List Cell)) (headerIdx : ℕ)
    (teamIdx regionIdx productIdx targetIdx : ℤ) (dcm : List (ℕ × ℕ))
    (im : Bool) (m y : ℕ) (fy : String) (acc : List DepartmentMismatch) (day : ℕ)
    (h : ∀ e ∈ acc, c7Src rows targetIdx dcm im m y e) :
    ∀ e ∈ salesDayStep rows headerIdx teamIdx regionIdx productIdx targetIdx dcm
        im m y fy acc day, c7Src rows targetIdx dcm im m y e := by
  intro e he
  unfold salesDayStep at he
  dsimp only [] at he
  cases im with
  | true =>
    have he2 : e ∈ (if (targetIdx == -1) = true then acc
        else (rows.enum.foldl (salesRowStep headerIdx teamIdx regionIdx productIdx targetIdx
          true m y day fy) ("", acc)).2) := he
    split at he2
    · exact h e he2
    · exact salesRows_fold_src rows targetIdx dcm headerIdx teamIdx regionIdx productIdx
        targetIdx true m y day fy (fun _ => rfl) (fun hf => Bool.noConfusion hf)
        rows.enum ("", acc) (fun p hp => enum_snd_mem rows p hp) h e he2
  | false =>
    cases hc : recordGet dcm day with
    | none =>
      rw [hc] at he
      exact h e he
    | some c =>
      rw [hc] at he
      have he2 : e ∈ (if ((c : ℤ) == -1) = true then acc
          else (rows.enum.foldl (salesRowStep headerIdx teamIdx regionIdx productIdx (c : ℤ)
            false m y day fy) ("", acc)).2) := he
      split at he2
      · exact h e he2
      · exact salesRows_fold_src rows targetIdx dcm headerIdx teamIdx regionIdx productIdx
          (c : ℤ) false m y day fy (fun ht => Bool.noConfusion ht) (fun _ => ⟨c, hc, rfl⟩)
          rows.enum ("", acc) (fun p hp => enum_snd_mem rows p hp) h e he2

theorem salesDays_fold_src (rows : List (List Cell)) (headerIdx : ℕ)
    (teamIdx regionIdx productIdx targetIdx : ℤ) (dcm : List (ℕ × ℕ))
    (im : Bool) (m y : ℕ) (fy : String) (days : List ℕ) (acc : List DepartmentMismatch)
    (h : ∀ e ∈ acc, c7Src rows targetIdx dcm im m y e) :
    ∀ e ∈ days.foldl (salesDayStep rows headerIdx teamIdx regionIdx productIdx targetIdx
        dcm im m y fy) acc, c7Src rows targetIdx dcm im m y e := by
  induction days generalizing acc with
  | nil => exact h
  | cons d t ih =>
    exact ih _ (salesDayStep_src rows headerIdx teamIdx regionIdx productIdx targetIdx
      dcm im m y fy acc d h)

/-- C7: every fact record emitted by the sales fact extractor satisfies
`variance = actual − plan` with the master/daily asymmetry, and its value
fields are the normalized content of a source cell (`c7Src`): there are a
source row of the grid, a resolved data column and a day such that — with
`v` the `cleanValue` of the cell at that row and column — a master record
has `plan = v`, `actual = 0`, `variance = −v` and the
`MASTER_<Month>_<Year>` sentinel report date, with the data column equal to
the target/plan column of the header row, and a daily record has
`plan = 0`, `actual = v`, `variance = +v` and the day's date string, with
the data column given by the date-column map at that day. -/
theorem sales_fact_sign_convention (rows : List (List Cell)) (m y : ℕ) (im it : Bool)
    (e : DepartmentMismatch) (he : e ∈ parseSalesExcel rows m y im it) :
    e.variance = e.actual - e.plan
      ∧ (im = true → e.actual = JNum.val 0 ∧ e.variance = -e.plan
          ∧ e.reportDate = "MASTER_" ++ MONTH_NAMES.getD m "undefined" ++ "_" ++ toString y)
      ∧ (im = false → e.plan = JNum.val 0 ∧ e.variance = e.actual)
      ∧ c7Src rows (salesTargetIdx rows) (salesDateColumnMap (salesHeaderRow rows) m)
          im m y e := by
  have hsrc : c7Src rows (salesTargetIdx rows)
      (if im then [] else salesDateColumnMap (salesHeaderRow rows) m) im m y e := by
    revert he
    unfold parseSalesExcel
    intro he
    exact salesDays_fold_src rows (salesHeaderIdx rows) _ _ _ (salesTargetIdx rows) _
      im m y _ _ [] (fun x hx => absurd hx (List.not_mem_nil x)) e he
  have hsrc2 : c7Src rows (salesTargetIdx rows)
      (salesDateColumnMap (salesHeaderRow rows) m) im m y e := by
    obtain ⟨row, dataIdx, day, hrow, hmas, hdai, h4, h5, h6, h7⟩ := hsrc
    exact ⟨row, dataIdx, day, hrow, hmas,
      fun hf => by simpa [hf] using hdai hf, h4, h5, h6, h7⟩
  obtain ⟨row, dataIdx, day, hrow, hmas, hdai, h4, h5, h6, h7⟩ := hsrc2
  refine ⟨?_, ?_, ?_, row, dataIdx, day, hrow, hmas, hdai, h4, h5, h6, h7⟩
  · cases im
    · rw [h6, h5, h4]; exact (jnum_sub_zero _).symm
    · rw [h6, h5, h4]; exact (jnum_zero_sub _).symm
  · intro ht
    subst ht
    exact ⟨h5, by rw [h6, h4]; rfl, h7⟩
  · intro hf
    subst hf
    exact ⟨h4, by rw [h6, h5]; rfl⟩

/-- C7 (witness): the single record produced by the master scenario of the
spec satisfies the sign convention, and its value fields carry the
normalized content 4646 of the target-cell of its source row. -/
theorem sales_fact_sign_convention_witness :
    ((parseSalesExcel c7Grid 10 2025 true false).getD 0 blankEntry
        ∈ parseSalesExcel c7Grid 10 2025 true false)
      ∧ ((parseSalesExcel c7Grid 10 2025 true false).getD 0 blankEntry).variance =
          ((parseSalesExcel c7Grid 10 2025 true false).getD 0 blankEntry).actual
            - ((parseSalesExcel c7Grid 10 2025 true false).getD 0 blankEntry).plan
      ∧ ((parseSalesExcel c7Grid 10 2025 true false).getD 0 blankEntry).plan = JNum.val 4646
      ∧ ((parseSalesExcel c7Grid 10 2025 true false).getD 0 blankEntry).actual = JNum.val 0
      ∧ ((parseSalesExcel c7Grid 10 2025 true false).getD 0 blankEntry).variance =
          -(JNum.val 4646)
      ∧ ((parseSalesExcel c7Grid 10 2025 true false).getD 0 blankEntry).reportDate =
          "MASTER_November_2025" := by
  have hm : (parseSalesExcel c7Grid 10 2025 true false).getD 0 blankEntry
      ∈ parseSalesExcel c7Grid 10 2025 true false := by decide
  have h := sales_fact_sign_convention c7Grid 10 2025 true false _ hm
  refine ⟨hm, h.1, by decide, (h.2.1 rfl).1, by decide, ?_⟩
  rw [(h.2.1 rfl).2.2]
  decide

theorem productionRowParse_nonzero (mpc fdc : ℤ) (dim : ℕ) (row : List Cell) (p : Particular)
    (h : productionRowParse mpc fdc dim row = some p) : p.monthlyPlan ≠ JNum.val 0 := by
  unfold productionRowParse at h
  dsimp only [] at h
  split at h
  · exact Option.noConfusion h
  · split at h
    · exact Option.noConfusion h
    · rename_i hne
      obtain rfl := Option.some.inj h
      intro hq
      exact hne (beq_iff_eq.mpr hq)

/-- C10: every particular of a successfully parsed production report has a
monthly plan different from 0 — rows whose monthly-plan cell normalizes to
0 are dropped — and the report totals are sums over exactly the kept
particulars, so a dropped row contributes nothing to them. -/
theorem production_nonzero_plan (rows : List (List Cell)) (m y : ℕ) (rep : ProductionReport)
    (h : parseProductionExcel rows m y = Except.ok rep) :
    (∀ p ∈ rep.particulars, p.monthlyPlan ≠ JNum.val 0)
      ∧ rep.totalMonthlyPlan = JNum.sumJ (rep.particulars.map (·.monthlyPlan)) := by
  unfold parseProductionExcel at h
  revert h
  cases hf : (rows.take 10).findIdx? productionHeaderPred with
  | none => intro h; exact Except.noConfusion h
  | some idx =>
    intro h
    dsimp only [] at h
    rw [Except.ok.injEq] at h
    subst h
    refine ⟨?_, rfl⟩
    intro p hp
    obtain ⟨row, _, hsome⟩ := List.mem_filterMap.mp hp
    exact productionRowParse_nonzero _ _ _ row p hsome

/-- C10 (witness): on a concrete production grid with a zero-plan row, the
kept particular has a nonzero monthly plan. -/
theorem production_nonzero_plan_witness :
    parseProductionExcel c10Grid 10 2025 =
        Except.ok ((parseProductionExcel c10Grid 10 2025).toOption.getD blankProductionReport)
      ∧ (((parseProductionExcel c10Grid 10 2025).toOption.getD blankProductionReport).particulars.getD
            0 blankParticular
          ∈ ((parseProductionExcel c10Grid 10 2025).toOption.getD blankProductionReport).particulars)
      ∧ (((parseProductionExcel c10Grid 10 2025).toOption.getD blankProductionReport).particulars.getD
            0 blankParticular).monthlyPlan ≠ JNum.val 0 := by
  have hok : parseProductionExcel c10Grid 10 2025 =
      Except.ok ((parseProductionExcel c10Grid 10 2025).toOption.getD blankProductionReport) := by
    rfl
  have hmem : ((parseProductionExcel c10Grid 10 2025).toOption.getD blankProductionReport).particulars.getD
      0 blankParticular
      ∈ ((parseProductionExcel c10Grid 10 2025).toOption.getD blankProductionReport).particulars := by
    decide
  exact ⟨hok, hmem,
    (production_nonzero_plan c10Grid 10 2025 _ hok).1 _ hmem⟩

theorem val_div_val (a b : ℚ) (hb : b ≠ 0) :
    JNum.val a / JNum.val b = JNum.val (a / b) := by
  show JNum.div _ _ = _
  simp [JNum.div, hb, ratDiv_eq]

theorem mkRat_oneOhFive : (mkRat 105 100 : ℚ) = 1.05 := by
  rw [Rat.mkRat_eq_div]; norm_num

theorem range_ite_sum (d : ℕ) (hd : 7 ≤ d) (X Y : ℚ) :
    ((List.range d).map (fun (i : ℕ) => if ((d : ℤ) - 7) < ((i : ℤ) + 1) then X else Y)).sum
      = ((d - 7 : ℕ) : ℚ) * Y + 7 * X := by
  have hsplit : d = (d - 7) + 7 := (Nat.sub_add_cancel hd).symm
  rw [hsplit, List.range_add, List.map_append, List.sum_append]
  have h1 : ((List.range (d - 7)).map
      (fun (i : ℕ) => if ((((d - 7) + 7 : ℕ) : ℤ) - 7) < ((i : ℤ) + 1) then X else Y))
      = (List.range (d - 7)).map (fun _ => Y) := by
    apply List.map_congr_left
    intro i hi
    have hi2 := List.mem_range.mp hi
    rw [if_neg]
    push_cast
    omega
  have h2 : ((List.range 7).map (fun x => (d - 7) + x)).map
        (fun (i : ℕ) => if ((((d - 7) + 7 : ℕ) : ℤ) - 7) < ((i : ℤ) + 1) then X else Y)
      = ((List.range 7).map (fun x => (d - 7) + x)).map (fun _ => X) := by
    apply List.map_congr_left
    intro i hi
    obtain ⟨k, _, rfl⟩ := List.mem_map.mp hi
    rw [if_pos]
    omega
  rw [h1, h2]
  have hc1 : ((List.range (d - 7)).map (fun _ => Y)).sum = ((d - 7 : ℕ) : ℚ) * Y := by
    rw [List.map_const']
    rw [List.sum_replicate, List.length_range, nsmul_eq_mul]
  have hc2 : (((List.range 7).map (fun x => (d - 7) + x)).map (fun _ => X)).sum = 7 * X := by
    rw [List.map_const']
    rw [List.sum_replicate, List.length_map, List.length_range, nsmul_eq_mul]
    norm_num
  rw [hc1, hc2, Nat.add_sub_cancel]

theorem set_getD_self {α : Type} (l : List α) (i : ℕ) (dflt : α) (h : i < l.length) :
    l.set i (l.getD i dflt) = l := by
  induction l generalizing i with
  | nil => simp at h
  | cons a t ih =>
    cases i with
    | zero => simp [List.getD]
    | succ j =>
      rw [List.getD_cons_succ, List.set_cons_succ]
      rw [ih j (by simpa using h)]

theorem calculateDailyPlans_eq (m : ℚ) (d : ℕ) (hd : 7 < d) :
    calculateDailyPlans (JNum.val m) d =
      (List.range d).map (fun (i : ℕ) =>
        if ((d : ℤ) - 7) < ((i : ℤ) + 1) then JNum.val (m / d * 1.05)
        else JNum.val ((m - m / d * 1.05 * 7) / ((d : ℚ) - 7))) := by
  have hdq : ((d : ℚ)) ≠ 0 := Nat.cast_ne_zero.mpr (by omega)
  have hd7 : ((d : ℚ) - 7) ≠ 0 := by
    have h7 : (7 : ℚ) < (d : ℚ) := by exact_mod_cast hd
    linarith
  have hdiv1 : ∀ a : ℚ, JNum.val a / JNum.val ((d : ℚ)) = JNum.val (a / d) :=
    fun a => val_div_val a _ hdq
  have hdiv2 : ∀ a : ℚ, JNum.val a / JNum.val ((d : ℚ) - 7) = JNum.val (a / ((d : ℚ) - 7)) :=
    fun a => val_div_val a _ hd7
  unfold calculateDailyPlans
  dsimp only []
  simp only [JNum.val_sub_val, hdiv1, JNum.val_mul_val, mkRat_oneOhFive, hdiv2]
  have hsum : JNum.sumJ ((List.range d).map (fun (i : ℕ) =>
      if ((d : ℤ) - 7) < ((i : ℤ) + 1) then JNum.val (m / d * 1.05)
      else JNum.val ((m - m / d * 1.05 * 7) / ((d : ℚ) - 7)))) = JNum.val m := by
    rw [JNum.sumJ_eq_sum]
    simp only [← apply_ite JNum.val]
    rw [JNum.sum_map_val]
    rw [range_ite_sum d (le_of_lt hd)]
    congr 1
    rw [Nat.cast_sub (le_of_lt hd)]
    field_simp
    ring
  rw [hsum]
  simp only [JNum.val_sub_val, sub_self]
  split
  · rename_i heq
    have : d = 0 := by
      have := congrArg List.length heq
      simpa using this
    omega
  · rw [JNum.add_val_zero]
    apply set_getD_self
    simp
    omega

/-- C2: for every `monthlyPlan` and `daysInMonth > 7`, the production
allocator returns exactly `daysInMonth` per-day plans whose sum equals
`monthlyPlan` exactly (in the exact-rational model the final-day remainder
correction is zero), and each of the last 7 days equals
`monthlyPlan / daysInMonth * 1.05` — the final day included, its correction
being the zero remainder. -/
theorem production_allocator_exact (m : ℚ) (d : ℕ) (hd : 7 < d) :
    (calculateDailyPlans (JNum.val m) d).length = d
      ∧ JNum.sumJ (calculateDailyPlans (JNum.val m) d) = JNum.val m
      ∧ ∀ j, d - 7 ≤ j → j < d →
          (calculateDailyPlans (JNum.val m) d).getD j JNum.nan = JNum.val (m / d * 1.05) := by
  rw [calculateDailyPlans_eq m d hd]
  refine ⟨by simp, ?_, ?_⟩
  · rw [JNum.sumJ_eq_sum]
    simp only [← apply_ite JNum.val]
    rw [JNum.sum_map_val]
    rw [range_ite_sum d (le_of_lt hd)]
    congr 1
    have hdq : ((d : ℚ)) ≠ 0 := Nat.cast_ne_zero.mpr (by omega)
    have hd7 : ((d : ℚ) - 7) ≠ 0 := by
      have h7 : (7 : ℚ) < (d : ℚ) := by exact_mod_cast hd
      linarith
    rw [Nat.cast_sub (le_of_lt hd)]
    field_simp
    ring
  · intro j h1 h2
    rw [List.getD_eq_getElem?_getD, List.getElem?_map, List.getElem?_range h2]
    show (if ((d : ℤ) - 7) < ((j : ℤ) + 1) then JNum.val (m / d * 1.05)
      else JNum.val ((m - m / d * 1.05 * 7) / ((d : ℚ) - 7))) = JNum.val (m / d * 1.05)
    rw [if_pos]
    omega

/-- C2 (witness): a 100-unit plan over a 30-day month allocates 30 days,
sums to exactly 100, and gives the final day `100/30 * 1.05`. -/
theorem production_allocator_exact_witness :
    (calculateDailyPlans (JNum.val 100) 30).length = 30
      ∧ JNum.sumJ (calculateDailyPlans (JNum.val 100) 30) = JNum.val 100
      ∧ (calculateDailyPlans (JNum.val 100) 30).getD 29 JNum.nan = JNum.val (100 / 30 * 1.05) := by
  have h := production_allocator_exact 100 30 (by norm_num)
  have h3 := h.2.2 29 (by norm_num) (by norm_num)
  rw [show (((30 : ℕ) : ℚ)) = (30 : ℚ) by norm_num] at h3
  exact ⟨h.1, h.2.1, h3⟩

theorem jsRound_abs (q : ℚ) : |((jsRound q : ℤ) : ℚ) - q| ≤ 1 / 2 := by
  rw [jsRound_eq]
  have h1 : ((⌊q + 1 / 2⌋ : ℤ) : ℚ) ≤ q + 1 / 2 := Int.floor_le _
  have h2 : q + 1 / 2 < ((⌊q + 1 / 2⌋ : ℤ) : ℚ) + 1 := Int.lt_floor_add_one _
  rw [abs_le]
  constructor <;> linarith

theorem mkRat_threeFive : (mkRat 35 10 : ℚ) = 3.5 := by
  rw [Rat.mkRat_eq_div]; norm_num

/-- C8 (counterexample): with `monthlyPlan = 10` and `workingDaysCount = 5`
in November 2025, `getDailyTarget` returns 1 for a non-closing day — not
the exact share `10/7.5 = 4/3` — and 5 for the closing day, and the five
daily targets (1:1 day:working-day mapping over the last five calendar
days) sum to 9, not 10: `Math.round` is applied to each day separately. -/
theorem sales_allocator_c8_counterexample :
    getDailyTarget 5 2025 10 10 26 = 1
      ∧ getDailyTarget 5 2025 10 10 30 = 5
      ∧ ((1 : ℚ)) ≠ 10 / (((5 : ℚ) - 1) + 3.5)
      ∧ ([26, 27, 28, 29, 30].map (fun day => getDailyTarget 5 2025 10 10 day)).sum = 9
      ∧ (9 : ℤ) ≠ 10 :=
  ⟨by decide, by decide, by norm_num, by decide, by decide⟩

/-- C8 (amended): the unrounded shares do sum exactly to the monthly plan —
`(wdc − 1)` normal days plus one 3.5-weighted closing day — but the
allocator returns `Math.round` of each share: the non-closing day value is
`round(plan/totalWeights)` and the closing day `round(3.5 × that share)`,
each within 1/2 of its exact share, so the per-day equalities and the
floating-point-exact sum of the original claim hold only up to these
rounding errors. -/
theorem sales_allocator_rounding (wdc y mo : ℕ) (P : ℚ) (day : ℕ) (h : 1 < wdc) :
    ((wdc : ℚ) - 1) * (P / (((wdc : ℚ) - 1) + 3.5)) + 3.5 * (P / (((wdc : ℚ) - 1) + 3.5)) = P
      ∧ (isLastDay y mo day = false →
          getDailyTarget wdc y mo P day = jsRound (P / (((wdc : ℚ) - 1) + 3.5))
            ∧ |((getDailyTarget wdc y mo P day : ℤ) : ℚ) - P / (((wdc : ℚ) - 1) + 3.5)| ≤ 1 / 2)
      ∧ (isLastDay y mo day = true →
          getDailyTarget wdc y mo P day = jsRound (P / (((wdc : ℚ) - 1) + 3.5) * 3.5)
            ∧ |((getDailyTarget wdc y mo P day : ℤ) : ℚ) - P / (((wdc : ℚ) - 1) + 3.5) * 3.5|
                ≤ 1 / 2) := by
  have hw : (2 : ℚ) ≤ (wdc : ℚ) := by exact_mod_cast h
  have htw : (((wdc : ℚ) - 1) + 3.5) ≠ 0 := by norm_num; linarith
  refine ⟨by field_simp; ring, ?_, ?_⟩
  · intro hf
    unfold getDailyTarget
    dsimp only []
    rw [hf]
    simp only [Bool.false_eq_true, if_false, ratAdd_eq, ratSub_eq, ratDiv_eq, mkRat_threeFive]
    exact ⟨trivial, jsRound_abs _⟩
  · intro ht
    unfold getDailyTarget
    dsimp only []
    rw [ht]
    simp only [if_true, ratAdd_eq, ratSub_eq, ratMul_eq, ratDiv_eq, mkRat_threeFive]
    exact ⟨trivial, jsRound_abs _⟩

/-- C8 (witness): at plan 10 with 5 working days, the exact shares sum to
10, and the day-26 (non-closing) target is the rounded share, within 1/2 of
the exact value 4/3. -/
theorem sales_allocator_rounding_witness :
    ((5 : ℚ) - 1) * (10 / (((5 : ℚ) - 1) + 3.5)) + 3.5 * (10 / (((5 : ℚ) - 1) + 3.5)) = 10
      ∧ getDailyTarget 5 2025 10 10 26 = jsRound (10 / (((5 : ℚ) - 1) + 3.5))
      ∧ |((getDailyTarget 5 2025 10 10 26 : ℤ) : ℚ) - 10 / (((5 : ℚ) - 1) + 3.5)| ≤ 1 / 2 := by
  have h := sales_allocator_rounding 5 2025 10 10 26 (by norm_num)
  have hcast : (((5 : ℕ) : ℚ)) = (5 : ℚ) := by norm_num
  have h1 := h.1
  have h2 := h.2.1 (by decide)
  rw [hcast] at h1 h2
  exact ⟨h1, h2.1, h2.2⟩

theorem foldl_id {α β : Type} (g : β → α → β) (b : β) (l : List α)
    (h : ∀ x ∈ l, g b x = b) : l.foldl g b = b := by
  induction l with
  | nil => rfl
  | cons x t ih =>
    rw [List.foldl_cons, h x (by simp)]
    exact ih (fun z hz => h z (by simp [hz]))

theorem getD_append_len {α : Type} (l₁ l₂ : List α) (x d : α) :
    (l₁ ++ x :: l₂).getD l₁.length d = x := by
  induction l₁ with
  | nil => rfl
  | cons a t ih => simpa using ih

theorem set_append_len {α : Type} (l₁ l₂ : List α) (x y : α) :
    (l₁ ++ x :: l₂).set l₁.length y = l₁ ++ y :: l₂ := by
  induction l₁ with
  | nil => rfl
  | cons a t ih => simp [ih]

theorem findIdx_append_len {α : Type} (p : α → Bool) (l₁ l₂ : List α) (x : α)
    (h1 : ∀ y ∈ l₁, p y = false) (hx : p x = true) :
    (l₁ ++ x :: l₂).findIdx? p = some l₁.length := by
  rw [List.findIdx?_append, List.findIdx?_eq_none_iff.mpr h1]
  simp [List.findIdx?_cons, hx]

theorem mergeWeekInto_self (ws : List FinanceWeek)
    (hnd : (ws.map (·.weekLabel)).Nodup) (nw : FinanceWeek) (hmem : nw ∈ ws) :
    mergeWeekInto ws nw = ws := by
  obtain ⟨i, hi, hget⟩ := List.getElem_of_mem hmem
  unfold mergeWeekInto
  have hfind : ws.findIdx? (fun w => w.weekLabel == nw.weekLabel) = some i := by
    rw [List.findIdx?_eq_some_iff_getElem]
    refine ⟨hi, by rw [hget]; simp, ?_⟩
    intro j hji hcontra
    have hj : j < ws.length := Nat.lt_trans hji hi
    have hlabels : ws[j].weekLabel = ws[i].weekLabel := by
      rw [hget]
      exact beq_iff_eq.mp hcontra
    have hmj : (ws.map (·.weekLabel)).get ⟨j, by simpa using hj⟩
        = (ws.map (·.weekLabel)).get ⟨i, by simpa using hi⟩ := by
      rw [List.get_eq_getElem, List.get_eq_getElem, List.getElem_map, List.getElem_map]
      exact hlabels
    have hji2 := (List.Nodup.get_inj_iff hnd).mp hmj
    have : j = i := by simpa using hji2
    omega
  rw [hfind, ← hget]
  rw [← List.getD_eq_getElem ws nw hi]
  exact set_getD_self ws i nw hi

theorem mergeWeeks_self (ws : List FinanceWeek) (hnd : (ws.map (·.weekLabel)).Nodup) :
    ws.foldl mergeWeekInto ws = ws :=
  foldl_id mergeWeekInto ws ws (fun nw hm => mergeWeekInto_self ws hnd nw hm)

theorem mergeCat_name (c nc : FinanceCategory) : (mergeCat c nc).name = c.name := rfl

theorem mergeCat_self_key (c : FinanceCategory) (hc : catConsistent c) :
    catKey (mergeCat c c) = catKey c := by
  unfold mergeCat catKey
  dsimp only []
  rw [mergeWeeks_self c.weeks hc.1]
  have hperm := List.perm_insertionSort
    (fun a b : FinanceWeek => a.weekNumber ≤ b.weekNumber) c.weeks
  have hp : JNum.sumJ ((sortWeeks c.weeks).map (·.projected))
      = JNum.sumJ (c.weeks.map (·.projected)) := by
    rw [JNum.sumJ_eq_sum, JNum.sumJ_eq_sum]
    exact (hperm.map _).sum_eq
  have ha : JNum.sumJ ((sortWeeks c.weeks).map (·.actual))
      = JNum.sumJ (c.weeks.map (·.actual)) := by
    rw [JNum.sumJ_eq_sum, JNum.sumJ_eq_sum]
    exact (hperm.map _).sum_eq
  rw [hp, ha, ← hc.2.1, ← hc.2.2]

theorem mergeCats_self_aux (post : List FinanceCategory) :
    ∀ pre : List FinanceCategory, (((pre ++ post).map (·.name)).Nodup) →
      mergeCats (pre.map (fun c => mergeCat c c) ++ post) post
        = (pre ++ post).map (fun c => mergeCat c c) := by
  induction post with
  | nil => intro pre _; simp [mergeCats]
  | cons nc rest ih =>
    intro pre hnd
    have hnotin : ∀ y ∈ pre.map (fun c => mergeCat c c), (y.name == nc.name) = false := by
      intro y hy
      obtain ⟨c0, hc0, rfl⟩ := List.mem_map.mp hy
      rw [mergeCat_name]
      have hnames : ((pre.map (·.name)) ++ nc.name :: (rest.map (·.name))).Nodup := by
        simpa using hnd
      obtain ⟨_, _, hdisj⟩ := List.nodup_append.mp hnames
      have hne : c0.name ≠ nc.name := by
        intro he
        exact hdisj (List.mem_map_of_mem _ hc0) (by rw [he]; exact List.mem_cons_self _ _)
      simpa using hne
    have hfind : ((pre.map (fun c => mergeCat c c)) ++ nc :: rest).findIdx?
        (fun c => c.name == nc.name) = some (pre.map (fun c => mergeCat c c)).length :=
      findIdx_append_len _ _ _ _ hnotin (by simp)
    unfold mergeCats
    rw [List.foldl_cons, hfind]
    dsimp only []
    rw [getD_append_len, set_append_len]
    have hstep : (pre.map (fun c => mergeCat c c)) ++ mergeCat nc nc :: rest
        = ((pre ++ [nc]).map (fun c => mergeCat c c)) ++ rest := by
      simp
    rw [hstep]
    have hnd2 : (((pre ++ [nc]) ++ rest).map (·.name)).Nodup := by
      rw [List.append_assoc]
      simpa using hnd
    have := ih (pre ++ [nc]) hnd2
    unfold mergeCats at this
    rw [this]
    simp

theorem mergeCats_self (C : List FinanceCategory) (hnd : namesNodup C) :
    mergeCats C C = C.map (fun c => mergeCat c c) := by
  have h := mergeCats_self_aux C [] (by simpa [namesNodup] using hnd)
  simpa using h

theorem mergeCats_self_keys (C : List FinanceCategory) (hnd : namesNodup C)
    (hc : ∀ c ∈ C, catConsistent c) :
    (mergeCats C C).map catKey = C.map catKey := by
  rw [mergeCats_self C hnd, List.map_map]
  exact List.map_congr_left (fun c hcm => mergeCat_self_key c (hc c hcm))

theorem map_totalActual_of_keys (l₁ l₂ : List FinanceCategory)
    (h : l₁.map catKey = l₂.map catKey) :
    l₁.map (·.totalActual) = l₂.map (·.totalActual) := by
  have h2 := congrArg (List.map (fun k : String × JNum × JNum => k.2.2)) h
  rw [List.map_map, List.map_map] at h2
  exact h2

theorem map_totalProjected_of_keys (l₁ l₂ : List FinanceCategory)
    (h : l₁.map catKey = l₂.map catKey) :
    l₁.map (·.totalProjected) = l₂.map (·.totalProjected) := by
  have h2 := congrArg (List.map (fun k : String × JNum × JNum => k.2.1)) h
  rw [List.map_map, List.map_map] at h2
  exact h2

/-- C9 (counterexample): merging a report into itself is NOT total-preserving
when two categories share a name (which the section parser permits whenever
two rows carry the same particulars text): the self-merge of `c9DupReport`
changes the recomputed inflow total. -/
theorem finance_merge_self_counterexample :
    (mergeFinanceReports c9DupReport [c9DupReport]).inflow.actual
      ≠ (mergeFinanceReports c9DupReport []).inflow.actual := by
  decide

/-- C9 (amended): if the category names of the report are pairwise distinct per
section, each category's week labels are pairwise distinct, and the stored
category totals equal the sums of their weeks (all true of freshly parsed
reports), then merging the report into itself leaves every category's name
and totals, both section totals, and the closing balance identical to
processing the report once: the (category name, week label) merge key
replaces rather than appends matching weeks. -/
theorem finance_merge_self (R : FinanceMismatchReport)
    (hin : namesNodup R.inflowCategories) (hout : namesNodup R.outflowCategories)
    (hc : ∀ c ∈ R.inflowCategories ++ R.outflowCategories, catConsistent c) :
    (mergeFinanceReports R [R]).inflowCategories.map catKey
        = (mergeFinanceReports R []).inflowCategories.map catKey
      ∧ (mergeFinanceReports R [R]).outflowCategories.map catKey
          = (mergeFinanceReports R []).outflowCategories.map catKey
      ∧ (mergeFinanceReports R [R]).inflow = (mergeFinanceReports R []).inflow
      ∧ (mergeFinanceReports R [R]).outflow = (mergeFinanceReports R []).outflow
      ∧ (mergeFinanceReports R [R]).closingBalance
          = (mergeFinanceReports R []).closingBalance := by
  have hkin : (mergeCats R.inflowCategories R.inflowCategories).map catKey
      = R.inflowCategories.map catKey :=
    mergeCats_self_keys _ hin (fun c hcm => hc c (List.mem_append_left _ hcm))
  have hkout : (mergeCats R.outflowCategories R.outflowCategories).map catKey
      = R.outflowCategories.map catKey :=
    mergeCats_self_keys _ hout (fun c hcm => hc c (List.mem_append_right _ hcm))
  have hain := map_totalActual_of_keys _ _ hkin
  have hpin := map_totalProjected_of_keys _ _ hkin
  have haout := map_totalActual_of_keys _ _ hkout
  have hpout := map_totalProjected_of_keys _ _ hkout
  unfold mergeFinanceReports reCalcTotal
  dsimp only [List.foldl_cons, List.foldl_nil]
  rw [hain, hpin, haout, hpout]
  simp only [ite_self]
  refine ⟨hkin, hkout, ?_, ?_, ?_⟩ <;> first | rfl | trivial

/-- C9 (witness): a concrete well-formed report self-merges to the same
totals and closing balance as processing it once. -/
theorem finance_merge_self_witness :
    (mergeFinanceReports c9OkReport [c9OkReport]).inflow
        = (mergeFinanceReports c9OkReport []).inflow
      ∧ (mergeFinanceReports c9OkReport [c9OkReport]).closingBalance
          = (mergeFinanceReports c9OkReport []).closingBalance := by
  have h := finance_merge_self c9OkReport (by decide) (by decide) (by decide)
  exact ⟨h.2.2.1, h.2.2.2.2⟩

end Swiss
